import Mathlib

/-!
Verification development for the CycleGraph cycling-power core
(`core/src/physics.rs`, `core/src/smoothing.rs`, `core/src/models.rs`,
`core/src/calibration.rs`, `core/src/weather.rs`).

Numbers: the Rust code computes in `f64`.  We model an `f64` value by the
type `F`: either a finite value carrying an exact real number, or one of
the special values NaN, `+inf`, `-inf`.  Arithmetic on finite values is
exact real arithmetic (no rounding and no overflow is modelled); the
special values propagate following IEEE-754 rules (`inf - inf = NaN`,
`0 * inf = NaN`, Rust `f64::max` drops a NaN argument, comparisons with
NaN are false, and so on).  Code that can panic (here: the altitude
smoother, whose `sort_by(partial_cmp ... unwrap)` panics on a NaN
altitude) is modelled with `Option`, `none` meaning a panic.
-/

open scoped Classical

noncomputable section

namespace CycleGraph

/-- Model of an `f64` value: exact finite real, or a special value. -/
inductive F where
  | fin : ℝ → F
  | pinf : F
  | ninf : F
  | nan : F

namespace F

/-- `f64::is_finite`. -/
def isFinite : F → Bool
  | fin _ => true
  | _ => false

/-- `f64::is_nan`. -/
def isNan : F → Bool
  | nan => true
  | _ => false

/-- IEEE `<` (any comparison with NaN is false). -/
def lt : F → F → Prop
  | fin x, fin y => x < y
  | fin _, pinf => True
  | ninf, fin _ => True
  | ninf, pinf => True
  | _, _ => False

/-- IEEE addition (exact on finite values; `inf + -inf = NaN`). -/
def add : F → F → F
  | nan, _ => nan
  | _, nan => nan
  | pinf, ninf => nan
  | ninf, pinf => nan
  | pinf, _ => pinf
  | _, pinf => pinf
  | ninf, _ => ninf
  | _, ninf => ninf
  | fin x, fin y => fin (x + y)

/-- IEEE negation. -/
def neg : F → F
  | fin x => fin (-x)
  | pinf => ninf
  | ninf => pinf
  | nan => nan

/-- IEEE subtraction, as `x + (-y)` (so `inf - inf = NaN`). -/
def sub (x y : F) : F := add x (neg y)

/-- IEEE multiplication (exact on finite values; `0 * inf = NaN`). -/
def mul : F → F → F
  | nan, _ => nan
  | _, nan => nan
  | fin x, fin y => fin (x * y)
  | fin x, pinf => if 0 < x then pinf else if x < 0 then ninf else nan
  | pinf, fin y => if 0 < y then pinf else if y < 0 then ninf else nan
  | fin x, ninf => if 0 < x then ninf else if x < 0 then pinf else nan
  | ninf, fin y => if 0 < y then ninf else if y < 0 then pinf else nan
  | pinf, pinf => pinf
  | ninf, ninf => pinf
  | pinf, ninf => ninf
  | ninf, pinf => ninf

/-- IEEE division (the model has no signed zero: a finite nonzero value
divided by zero takes the sign of the numerator). -/
def div : F → F → F
  | nan, _ => nan
  | _, nan => nan
  | fin x, fin y =>
      if y = 0 then (if x = 0 then nan else if 0 < x then pinf else ninf)
      else fin (x / y)
  | fin _, pinf => fin 0
  | fin _, ninf => fin 0
  | pinf, fin y => if 0 ≤ y then pinf else ninf
  | ninf, fin y => if 0 ≤ y then ninf else pinf
  | _, _ => nan

/-- Rust `f64::max`: if one argument is NaN the other is returned. -/
def fmax : F → F → F
  | nan, y => y
  | x, nan => x
  | pinf, _ => pinf
  | _, pinf => pinf
  | ninf, y => y
  | x, ninf => x
  | fin x, fin y => fin (max x y)

/-- `f64::abs`. -/
def abs : F → F
  | fin x => fin |x|
  | nan => nan
  | _ => pinf

/-- Rust `f64::clamp(lo, hi)` with finite ordered bounds: NaN stays NaN. -/
def clamp (x : F) (lo hi : ℝ) : F :=
  match x with
  | fin v => fin (min (max v lo) hi)
  | pinf => fin hi
  | ninf => fin lo
  | nan => nan

/-- Rust `f64::round` (half away from zero; Lean `round` is `⌊x + 1/2⌋`,
which agrees with Rust on non-negative values). -/
def roundR : F → F
  | fin x => fin (if 0 ≤ x then (round x : ℝ) else -(round (-x) : ℝ))
  | pinf => pinf
  | ninf => ninf
  | nan => nan

/-- `f64::rem_euclid(m)` for a finite positive modulus `m` (the only
form the source uses: `rem_euclid(360.0)`); non-finite input gives NaN. -/
def remEuclid (x : F) (m : ℝ) : F :=
  match x with
  | fin v => fin (v - m * (⌊v / m⌋ : ℝ))
  | _ => nan

/-- `f64::cos` (NaN on non-finite input, per IEEE). -/
def cosF : F → F
  | fin x => fin (Real.cos x)
  | _ => nan

/-- `f64::sin` (NaN on non-finite input, per IEEE). -/
def sinF : F → F
  | fin x => fin (Real.sin x)
  | _ => nan

/-- `f64::to_radians`: multiply by `π / 180`. -/
def toRadians (x : F) : F := mul x (fin (Real.pi / 180))

/-- `f64::to_degrees`: multiply by `180 / π`. -/
def toDegrees (x : F) : F := mul x (fin (180 / Real.pi))

/-- `x.powi(3)`, i.e. `x * x * x`. -/
def cube (x : F) : F := mul (mul x x) x

/-- Real-valued `atan2 y x` (the standard four-quadrant arctangent;
`atan2 0 0 = 0` as in IEEE). -/
def arctan2 (y x : ℝ) : ℝ :=
  if 0 < x then Real.arctan (y / x)
  else if x < 0 then
    (if 0 ≤ y then Real.arctan (y / x) + Real.pi else Real.arctan (y / x) - Real.pi)
  else (if 0 < y then Real.pi / 2 else if y < 0 then -(Real.pi / 2) else 0)

/-- `f64::atan2` on the model, including the IEEE special cases for
infinite arguments; NaN anywhere gives NaN. -/
def atan2F : F → F → F
  | nan, _ => nan
  | _, nan => nan
  | fin y, fin x => fin (arctan2 y x)
  | pinf, pinf => fin (Real.pi / 4)
  | pinf, ninf => fin (3 * Real.pi / 4)
  | ninf, pinf => fin (-(Real.pi / 4))
  | ninf, ninf => fin (-(3 * Real.pi / 4))
  | pinf, fin _ => fin (Real.pi / 2)
  | ninf, fin _ => fin (-(Real.pi / 2))
  | fin _, pinf => fin 0
  | fin y, ninf => if 0 ≤ y then fin Real.pi else fin (-Real.pi)

/-- Whether a real number is an odd integer (used for IEEE `powf`). -/
def isOddInt (y : ℝ) : Prop := ∃ n : ℤ, (2 * n + 1 : ℝ) = y

/-- `f64::powf` following the IEEE `pow` special cases (`pow(x, 0) = 1`
and `pow(1, y) = 1` even for NaN arguments; a negative finite base with
a non-integer exponent gives NaN; a positive finite base uses the exact
real power `Real.rpow`). -/
def powf (x y : F) : F :=
  match x, y with
  | _, fin ye =>
      if ye = 0 then fin 1
      else
        match x with
        | nan => nan
        | fin xe =>
            if 0 < xe then fin (xe ^ ye)
            else if xe = 0 then (if 0 < ye then fin 0 else pinf)
            else
              if ∃ n : ℤ, (n : ℝ) = ye then
                fin ((if isOddInt ye then (-1 : ℝ) else 1) * |xe| ^ ye)
              else nan
        | pinf => if 0 < ye then pinf else fin 0
        | ninf =>
            if 0 < ye then (if isOddInt ye then ninf else pinf)
            else fin 0
  | fin xe, _ =>
      if xe = 1 then fin 1
      else
        match y with
        | nan => nan
        | pinf => if |xe| < 1 then fin 0 else if |xe| = 1 then fin 1 else pinf
        | ninf => if |xe| < 1 then pinf else if |xe| = 1 then fin 1 else fin 0
        | fin _ => nan
  | nan, _ => nan
  | pinf, nan => nan
  | ninf, nan => nan
  | pinf, pinf => pinf
  | pinf, ninf => fin 0
  | ninf, pinf => pinf
  | ninf, ninf => fin 0

instance : Add F := ⟨F.add⟩
instance : Sub F := ⟨F.sub⟩
instance : Mul F := ⟨F.mul⟩
instance : Div F := ⟨F.div⟩
instance : Neg F := ⟨F.neg⟩

@[simp] lemma add_def (x y : F) : x + y = F.add x y := rfl
@[simp] lemma sub_def (x y : F) : x - y = F.sub x y := rfl
@[simp] lemma mul_def (x y : F) : x * y = F.mul x y := rfl
@[simp] lemma div_def (x y : F) : x / y = F.div x y := rfl
@[simp] lemma neg_def (x : F) : -x = F.neg x := rfl

@[simp] lemma add_fin (a b : ℝ) : F.add (fin a) (fin b) = fin (a + b) := rfl
@[simp] lemma neg_fin (a : ℝ) : F.neg (fin a) = fin (-a) := rfl
@[simp] lemma sub_fin (a b : ℝ) : F.sub (fin a) (fin b) = fin (a + -b) := rfl
@[simp] lemma mul_fin (a b : ℝ) : F.mul (fin a) (fin b) = fin (a * b) := rfl
@[simp] lemma lt_fin_iff (a b : ℝ) : F.lt (fin a) (fin b) ↔ a < b := Iff.rfl
@[simp] lemma isFinite_fin (a : ℝ) : (fin a).isFinite = true := rfl
@[simp] lemma isNan_fin (a : ℝ) : (fin a).isNan = false := rfl
@[simp] lemma isNan_nan : (nan).isNan = true := rfl
@[simp] lemma fmax_fin (a b : ℝ) : F.fmax (fin a) (fin b) = fin (max a b) := rfl
@[simp] lemma abs_fin (a : ℝ) : F.abs (fin a) = fin |a| := rfl
@[simp] lemma cosF_fin (a : ℝ) : cosF (fin a) = fin (Real.cos a) := rfl
@[simp] lemma sinF_fin (a : ℝ) : sinF (fin a) = fin (Real.sin a) := rfl
@[simp] lemma cube_fin (a : ℝ) : cube (fin a) = fin (a * a * a) := rfl
@[simp] lemma clamp_fin (a lo hi : ℝ) : clamp (fin a) lo hi = fin (min (max a lo) hi) := rfl
@[simp] lemma remEuclid_fin (a m : ℝ) :
    remEuclid (fin a) m = fin (a - m * (⌊a / m⌋ : ℝ)) := rfl
@[simp] lemma toRadians_fin (a : ℝ) : toRadians (fin a) = fin (a * (Real.pi / 180)) := rfl

lemma div_fin (a b : ℝ) (hb : b ≠ 0) : F.div (fin a) (fin b) = fin (a / b) := by
  simp [F.div, hb]

lemma not_lt_nan (x : F) : ¬ F.lt x nan := by cases x <;> simp [F.lt]

lemma not_lt_of_pinf (x : F) : ¬ F.lt pinf x := by cases x <;> simp [F.lt]

/-- `if p.is_finite() { p.max(0.0) } else { 0.0 }`, the recurring
defensive clamp of the power code. -/
def finClamp0 (p : F) : F := if p.isFinite then fmax p (fin 0) else fin 0

/-- The defensive clamp always yields a finite non-negative value. -/
lemma finClamp0_spec (p : F) : ∃ x : ℝ, finClamp0 p = fin x ∧ 0 ≤ x := by
  cases p with
  | fin v =>
      refine ⟨max v 0, ?_, le_max_right _ _⟩
      simp [finClamp0, isFinite, fmax]
  | pinf => exact ⟨0, by simp [finClamp0, isFinite], le_refl 0⟩
  | ninf => exact ⟨0, by simp [finClamp0, isFinite], le_refl 0⟩
  | nan => exact ⟨0, by simp [finClamp0, isFinite], le_refl 0⟩

/-- `x.max(0.0)` can only produce a finite value that is non-negative. -/
lemma fmax_zero_fin {x : F} {g : ℝ} (h : fmax x (fin 0) = fin g) : 0 ≤ g := by
  cases x with
  | fin v =>
      simp only [fmax_fin, fin.injEq] at h
      simp [← h, le_max_right]
  | pinf => simp [fmax] at h
  | ninf => simp [fmax] at h; simp [← h]
  | nan => simp [fmax] at h; simp [← h]

end F

open F (fin pinf ninf nan)

/-! ## Data model (`core/src/models.rs`) -/

/-- One telemetry instant (`models.rs::Sample`). -/
structure Sample where
  t : F
  v_ms : F
  altitude_m : F
  heading_deg : F
  moving : Bool
  device_watts : Option F
  latitude : Option F
  longitude : Option F

/-- Ambient conditions (`models.rs::Weather`). -/
structure Weather where
  wind_ms : F
  wind_dir_deg : F
  air_temp_c : F
  air_pressure_hpa : F

/-- Rider+bike parameters (`models.rs::Profile`). -/
structure Profile where
  total_weight : Option F
  bike_type : Option String
  crr : Option F
  cda : Option F
  calibrated : Bool
  calibration_mae : Option F
  estimat : Bool

/-- Placeholder sample used as the (never-read) default of list indexing. -/
def dSample : Sample :=
  { t := nan, v_ms := nan, altitude_m := nan, heading_deg := nan,
    moving := false, device_watts := none, latitude := none, longitude := none }

/-- `Sample::heading_to` (`models.rs` lines 121-145): great-circle initial
bearing, in degrees 0-360, from this GPS fix to the next; `none` when any
coordinate is missing. -/
def heading_to (s next : Sample) : Option F :=
  match s.latitude, s.longitude, next.latitude, next.longitude with
  | some lat1, some lon1, some lat2, some lon2 =>
      let phi1 := F.toRadians lat1
      let phi2 := F.toRadians lat2
      let dlam := F.toRadians (lon2 - lon1)
      let y := F.sinF dlam * F.cosF phi2
      let x := F.cosF phi1 * F.sinF phi2 - F.sinF phi1 * F.cosF phi2 * F.cosF dlam
      let theta := F.toDegrees (F.atan2F y x)
      some (if F.lt theta (fin 0) then theta + fin 360 else theta)
  | _, _, _, _ => none

/-- `Weather::headwind_component` (`models.rs` lines 147-156): component of
the wind along the travel direction, positive = headwind
("positiv = motvind"), using the meteorological coming-from convention. -/
def headwind_component (w : Weather) (heading_deg : F) : F :=
  w.wind_ms * F.cosF (F.toRadians (F.remEuclid (heading_deg - w.wind_dir_deg) 360))

/-! ## Altitude smoother (`core/src/smoothing.rs`) -/

/-- Least element of two under the IEEE `<` used by the Rust sort (only
applied to non-NaN values, where it is a total order). -/
def fmin2 (a b : F) : F := if F.lt a b then a else b

/-- Greatest element of two, same caveat as `fmin2`. -/
def fmax2 (a b : F) : F := if F.lt a b then b else a

/-- Middle element of three totally ordered values — the `win[1]` of the
source after `win.sort_by(partial_cmp ... unwrap)`. -/
def median3 (a b c : F) : F := fmax2 (fmin2 a b) (fmin2 (fmax2 a b) c)

/-- Altitude of `samples[j]` with the edge-repeat rule of the smoother:
index `-1` and index `n` repeat the boundary value. -/
def altWin (samples : List Sample) (i : Nat) (k : Int) : F :=
  let j : Int := i + k
  if 0 ≤ j ∧ j.toNat < samples.length then
    (samples.getD j.toNat dSample).altitude_m
  else (samples.getD i dSample).altitude_m

/-- `smoothing.rs::smooth_altitude`: 3-point median filter over the
altitude series.  The source sorts each window with
`sort_by(|x, y| x.partial_cmp(y).unwrap())`, which panics as soon as a
NaN altitude is compared; we model the panic as `none` (for a non-empty
series a NaN altitude always reaches a comparison). -/
def smooth_altitude (samples : List Sample) : Option (List F) :=
  if samples.isEmpty then some []
  else if samples.any (fun s => s.altitude_m.isNan) then none
  else some ((List.range samples.length).map (fun i =>
    median3 (altWin samples i (-1)) (altWin samples i 0) (altWin samples i 1)))

/-! ## Physics (`core/src/physics.rs`) -/

/-- Gravitational acceleration constant (`physics.rs::G`). -/
def G : ℝ := 9.80665

/-- Fixed standard air density constant (`physics.rs::RHO`). -/
def RHO : ℝ := 1.225

/-- `RoundTo::round_to` for `f64` (`physics.rs` lines 17-24). -/
def round_to (x : F) (dp : Nat) : F :=
  if dp = 0 then F.roundR x
  else F.roundR (x * fin ((10 : ℝ) ^ dp)) / fin ((10 : ℝ) ^ dp)

/-- The tire-quality multiplier `match` of `estimate_crr`, written as
the equivalent first-match conditional chain. -/
def quality_factor_of (tire_quality : String) : F :=
  if tire_quality = ("Trening") then fin 1.2
  else if tire_quality = ("Vanlig") then fin 1.0
  else if tire_quality = ("Ritt") then fin 0.85
  else fin 1.0

/-- `physics.rs::estimate_crr`: Crr estimate from tire width and quality.
Note the width guard is `tire_width_mm < 20.0` — an IEEE comparison,
false for NaN and `+inf` — and the replacement value is `25.0`. -/
def estimate_crr (_bike_type : String) (tire_width_mm : F) (tire_quality : String) : F :=
  round_to
    (fin 0.005 *
      F.powf (fin 28 / (if F.lt tire_width_mm (fin 20) then fin 25 else tire_width_mm))
        (fin 0.3) *
      quality_factor_of tire_quality) 5

/-- `physics.rs::cda_for`: CdA fallback from the bike-type label. -/
def cda_for (bike_type : Option String) : F :=
  match (bike_type.getD ("road")).toLower with
  | "tt" => fin 0.25
  | "tri" => fin 0.25
  | "mtb" => fin 0.40
  | "gravel" => fin 0.40
  | _ => fin 0.30

/-- `physics.rs::air_density` (lines 84-89): ideal-gas density from
temperature and pressure, clamped to `[0.9, 1.4]`.  Dead code in the
source (`#[allow(dead_code)]`): the power engine never calls it. -/
def air_density (air_temp_c air_pressure_hpa : F) : F :=
  let p_pa := F.fmax (air_pressure_hpa * fin 100) (fin 1)
  let t_k := F.fmax (air_temp_c + fin 273.15) (fin 150)
  F.clamp (p_pa / (fin 287.05 * t_k)) 0.9 1.4

/-- `physics.rs::drag_watt`: clamped aerodynamic drag power. -/
def drag_watt (rho cda v_rel_ms : F) : F :=
  let v := F.fmax v_rel_ms (fin 0)
  F.finClamp0 (fin 0.5 * rho * cda * F.cube v)

/-- `physics.rs::rolling_watt`: clamped rolling-resistance power. -/
def rolling_watt (crr mass_kg v_ms : F) : F :=
  let v := F.fmax v_ms (fin 0)
  F.finClamp0 (mass_kg * fin G * crr * v)

/-! Per-sample quantities of the `compute_power_with_wind` loop
(`physics.rs` lines 148-180), one definition per source line. -/

/-- Time step: `1.0` for the first sample, else `|t[i]-t[i-1]|.max(1e-3)`. -/
def dt_at (samples : List Sample) (i : Nat) : F :=
  if i = 0 then fin 1
  else F.fmax (F.abs ((samples.getD i dSample).t - (samples.getD (i - 1) dSample).t))
    (fin 0.001)

/-- Previous clamped speed (`v_prev`); the first sample uses itself. -/
def vprev_at (samples : List Sample) (i : Nat) : F :=
  if i = 0 then F.fmax (samples.getD 0 dSample).v_ms (fin 0)
  else F.fmax (samples.getD (i - 1) dSample).v_ms (fin 0)

/-- Current clamped speed (`v`). -/
def v_at (samples : List Sample) (i : Nat) : F :=
  F.fmax (samples.getD i dSample).v_ms (fin 0)

/-- Midpoint speed `v_mid = 0.5 * (v + v_prev)`. -/
def vmid_at (samples : List Sample) (i : Nat) : F :=
  fin 0.5 * (v_at samples i + vprev_at samples i)

/-- Acceleration `a = (v - v_prev) / dt`. -/
def a_at (samples : List Sample) (i : Nat) : F :=
  (v_at samples i - vprev_at samples i) / dt_at samples i

/-- Path length `ds = (v_mid * dt).max(1e-3)`. -/
def ds_at (samples : List Sample) (i : Nat) : F :=
  F.fmax (vmid_at samples i * dt_at samples i) (fin 0.001)

/-- Clamped local grade from the smoothed altitudes (`slope`). -/
def slope_at (samples : List Sample) (alt : List F) (i : Nat) : F :=
  if i = 0 then fin 0
  else F.clamp ((alt.getD i nan - alt.getD (i - 1) nan) / ds_at samples i) (-0.3) 0.3

/-- Heading used at sample `i`: GPS bearing to the next sample when it
exists, else the `0.0` default (`heading.unwrap_or(0.0)`). -/
def heading_at (samples : List Sample) (i : Nat) : F :=
  (if i + 1 < samples.length then
    heading_to (samples.getD i dSample) (samples.getD (i + 1) dSample)
  else none).getD (fin 0)

/-- Along-path wind at sample `i` (`wind_rel`). -/
def wind_rel_at (weather : Weather) (samples : List Sample) (i : Nat) : F :=
  headwind_component weather (heading_at samples i)

/-- Relative airspeed `v_rel = (v_mid - wind_rel).max(0.0)`. -/
def v_rel_at (weather : Weather) (samples : List Sample) (i : Nat) : F :=
  F.fmax (vmid_at samples i - wind_rel_at weather samples i) (fin 0)

/-- Mass used by the engine: `profile.total_weight.unwrap_or(75.0)`. -/
def mass_of (profile : Profile) : F := profile.total_weight.getD (fin 75)

/-- Crr used by the engine: `profile.crr.unwrap_or(0.005)`. -/
def crr_of (profile : Profile) : F := profile.crr.getD (fin 0.005)

/-- CdA used by the engine: stored value or the bike-type fallback. -/
def cda_of (profile : Profile) : F := profile.cda.getD (cda_for profile.bike_type)

/-- Rolling term `p_roll` of the loop. -/
def p_roll_at (samples : List Sample) (profile : Profile) (i : Nat) : F :=
  rolling_watt (crr_of profile) (mass_of profile) (vmid_at samples i)

/-- Aerodynamic term `p_aero` of the loop (note the fixed `RHO`). -/
def p_aero_at (weather : Weather) (samples : List Sample) (profile : Profile) (i : Nat) : F :=
  drag_watt (fin RHO) (cda_of profile) (v_rel_at weather samples i)

/-- Gravity term `p_grav = (mass * G * v_mid * slope).max(0.0)`. -/
def p_grav_at (samples : List Sample) (alt : List F) (profile : Profile) (i : Nat) : F :=
  F.fmax (mass_of profile * fin G * vmid_at samples i * slope_at samples alt i) (fin 0)

/-- Acceleration term `p_acc = (mass * a * v_mid).max(0.0)`. -/
def p_acc_at (samples : List Sample) (profile : Profile) (i : Nat) : F :=
  F.fmax (mass_of profile * a_at samples i * vmid_at samples i) (fin 0)

/-- Per-sample emitted power: the four terms summed, floored to `0.0`
when the sum is not finite, clamped to `≥ 0` otherwise. -/
def power_at (weather : Weather) (samples : List Sample) (alt : List F) (profile : Profile)
    (i : Nat) : F :=
  F.finClamp0 (p_roll_at samples profile i + p_aero_at weather samples profile i +
    p_grav_at samples alt profile i + p_acc_at samples profile i)

/-- Output of `compute_power_with_wind` (`physics.rs::PowerOutputs`). -/
structure PowerOutputs where
  power : List F
  wind_rel : List F
  v_rel : List F

/-- `physics.rs::compute_power_with_wind` (lines 128-183).  Returns
`none` when the altitude smoother panics (NaN altitude); otherwise the
three per-sample vectors. -/
def compute_power_with_wind (samples : List Sample) (profile : Profile)
    (weather : Weather) : Option PowerOutputs :=
  if samples.length = 0 then some { power := [], wind_rel := [], v_rel := [] }
  else
    match smooth_altitude samples with
    | none => none
    | some alt =>
        some { power := (List.range samples.length).map
                 (fun i => power_at weather samples alt profile i)
             , wind_rel := (List.range samples.length).map
                 (fun i => wind_rel_at weather samples i)
             , v_rel := (List.range samples.length).map
                 (fun i => v_rel_at weather samples i) }

/-- `physics.rs::compute_power`: wrapper returning only the power series. -/
def compute_power (samples : List Sample) (profile : Profile) (weather : Weather) :
    Option (List F) :=
  (compute_power_with_wind samples profile weather).map PowerOutputs.power

/-- `physics.rs::compute_indoor_power` (lines 191-202): pass through
`device_watts` unchanged when present, else a simple aero+rolling model. -/
def compute_indoor_power (sample : Sample) (profile : Profile) : F :=
  match sample.device_watts with
  | some watts => watts
  | none =>
      let v := F.fmax sample.v_ms (fin 0)
      let cda := cda_of profile
      let crr := profile.crr.getD (fin 0.004)
      let mass := profile.total_weight.getD (fin 75)
      let p_aero := drag_watt (fin RHO) cda v
      let p_roll := rolling_watt crr mass v
      F.fmax (p_aero + p_roll) (fin 0)

/-! ## Calibration engine (`core/src/calibration.rs`) -/

/-- `calibration.rs::CalibrationResult`.  The `calibrated` flag is a
`Prop` (the Rust `bool` of a comparison on real-valued data). -/
structure CalibrationResult where
  cda : F
  crr : F
  mae : F
  calibrated : Prop
  reason : Option String

/-- `calibration.rs::profile_crr`. -/
def profile_crr (profile : Profile) : F := profile.crr.getD (fin 0.005)

/-- `calibration.rs::profile_cda`. -/
def profile_cda (profile : Profile) : F := profile.cda.getD (fin 0.30)

/-- One step of the min/max altitude scan of `is_indoor_session`
(`if a < min_a { min_a = a }` and `if a > max_a { max_a = a }`). -/
def mmStep (st : F × F) (s : Sample) : F × F :=
  (if F.lt s.altitude_m st.1 then s.altitude_m else st.1,
   if F.lt st.2 s.altitude_m then s.altitude_m else st.2)

/-- The flat-altitude half of the indoor test: min/max fold (two IEEE
comparisons per sample starting from `inf` / `-inf`), then
`(max - min).abs() < 0.5`; fewer than two samples count as flat. -/
def flat_altitude (samples : List Sample) : Prop :=
  if samples.length < 2 then True
  else
    let mm := samples.foldl mmStep (pinf, ninf)
    F.lt (F.abs (mm.2 - mm.1)) (fin 0.5)

/-- `calibration.rs::is_indoor_session`: no GPS on any sample and a
practically flat altitude profile. -/
def is_indoor_session (samples : List Sample) : Prop :=
  (samples.all (fun s => s.latitude.isNone && s.longitude.isNone)) = true ∧
    flat_altitude samples

/-- The Crr grid `(3..=8).map(|x| x as f64 / 1000.0)`. -/
def grid_candidates : List ℝ := ([3, 4, 5, 6, 7, 8] : List ℝ).map (fun x => x / 1000)

/-- MAE of one grid candidate: mean absolute deviation over the pairs
where both model and measured values are finite; `none` models the
`if n == 0 { continue; }` branch. -/
def mae_of (model_w measured : List F) : Option F :=
  let fins := (model_w.zip measured).filter (fun p => p.1.isFinite && p.2.isFinite)
  if fins.length = 0 then none
  else some ((fins.foldl (fun acc p => acc + F.abs (p.1 - p.2)) (fin 0)) /
    fin (fins.length : ℝ))

/-- One iteration of the grid-search loop of `fit_cda_crr` (lines
112-150).  The state is `(best_mae, best_crr)`; `Except.error (some r)`
models the early `return` of the in-loop length guard, and
`Except.error none` models a panic inside `compute_power` (NaN
altitude reaching the smoother). -/
def grid_step (samples : List Sample) (measured : List F) (profile : Profile)
    (weather : Weather) (fixed_cda : F) (st : F × F) (crr : ℝ) :
    Except (Option CalibrationResult) (F × F) :=
  match compute_power samples
      { profile with crr := some (fin crr), cda := some fixed_cda } weather with
  | none => Except.error none
  | some model_w =>
      if model_w.length ≠ measured.length then
        Except.error (some
          { cda := fixed_cda, crr := profile_crr profile, mae := fin 0,
            calibrated := False, reason := some ("length_mismatch_model_vs_measured") })
      else
        match mae_of model_w measured with
        | none => Except.ok st
        | some mae => if F.lt mae st.1 then Except.ok (mae, fin crr) else Except.ok st

/-- Average measured power `sum / len` of the acceptance threshold. -/
def avg_measured (measured : List F) : F :=
  (measured.foldl F.add (fin 0)) / fin (measured.length : ℝ)

/-- `calibration.rs::fit_cda_crr` (lines 58-164): rejection rules in
order, then the Crr grid search and the 10 % acceptance threshold.
`none` models a panic (NaN altitude inside the grid search). -/
def fit_cda_crr (samples : List Sample) (measured : List F) (profile : Profile)
    (weather : Weather) : Option CalibrationResult :=
  if samples.length < 300 then
    some { cda := profile_cda profile, crr := profile_crr profile, mae := fin 0,
           calibrated := False, reason := some ("insufficient_segment") }
  else if measured.length ≠ samples.length then
    some { cda := profile_cda profile, crr := profile_crr profile, mae := fin 0,
           calibrated := False, reason := some ("length_mismatch_model_vs_measured") }
  else if measured.any (fun x => !x.isFinite) then
    some { cda := profile_cda profile, crr := profile_crr profile, mae := fin 0,
           calibrated := False, reason := some ("non_finite_measured_power") }
  else if is_indoor_session samples then
    some { cda := profile_cda profile, crr := profile_crr profile, mae := fin 0,
           calibrated := False, reason := some ("indoor_session") }
  else
    match grid_candidates.foldlM
        (grid_step samples measured profile weather (profile_cda profile))
        (pinf, profile_crr profile) with
    | Except.error e => e
    | Except.ok st =>
        some { cda := profile_cda profile, crr := st.2, mae := st.1,
               calibrated := (avg_measured measured).isFinite = true ∧
                 F.lt st.1 (fin 0.10 * avg_measured measured),
               reason := none }

/-! ## General lemmas about the embedding -/

lemma getD_map_range {α : Type} (f : Nat → α) (n i : Nat) (h : i < n) (d : α) :
    ((List.range n).map f).getD i d = f i := by
  simp [List.getD_eq_getElem?_getD, List.getElem?_map, List.getElem?_range h]

/-- On a NaN-free altitude series the smoother does not panic and keeps
the length. -/
lemma smooth_altitude_some {samples : List Sample}
    (h : ∀ s ∈ samples, s.altitude_m.isNan = false) :
    smooth_altitude samples = some ((List.range samples.length).map (fun i =>
      median3 (altWin samples i (-1)) (altWin samples i 0) (altWin samples i 1))) := by
  unfold smooth_altitude
  have hany : samples.any (fun s => s.altitude_m.isNan) = false := by
    simp only [List.any_eq_false]
    intro s hs
    simp [h s hs]
  rcases e : samples.isEmpty with _ | _
  · simp [e, hany]
  · rw [List.isEmpty_iff] at e
    subst e
    simp [List.length_nil, List.range_zero]

/-- On a NaN-free altitude series the engine does not panic, and its
outputs are exactly the per-sample definitions. -/
lemma compute_power_with_wind_some {samples : List Sample} (profile : Profile)
    (weather : Weather) (h : ∀ s ∈ samples, s.altitude_m.isNan = false) :
    ∃ alt : List F, compute_power_with_wind samples profile weather =
      some { power := (List.range samples.length).map
               (fun i => power_at weather samples alt profile i)
           , wind_rel := (List.range samples.length).map
               (fun i => wind_rel_at weather samples i)
           , v_rel := (List.range samples.length).map
               (fun i => v_rel_at weather samples i) } := by
  unfold compute_power_with_wind
  rcases Nat.eq_zero_or_pos samples.length with hz | hp
  · refine ⟨[], ?_⟩
    simp [hz]
  · refine ⟨(List.range samples.length).map (fun i =>
      median3 (altWin samples i (-1)) (altWin samples i 0) (altWin samples i 1)), ?_⟩
    rw [if_neg (by omega), smooth_altitude_some h]

/-- The model power series, when it exists, has the sample count as its
length. -/
lemma compute_power_length {samples : List Sample} {profile : Profile}
    {weather : Weather} {l : List F}
    (h : compute_power samples profile weather = some l) : l.length = samples.length := by
  unfold compute_power compute_power_with_wind at h
  rcases hz : samples.length with _ | n
  · rw [hz] at h
    simp at h
    simp [← h]
  · rw [hz] at h
    rw [if_neg (by omega)] at h
    rcases hs : smooth_altitude samples with _ | alt
    · rw [hs] at h; simp at h
    · rw [hs] at h
      simp at h
      simp [← h, hz]

/-! ## Concrete inputs used by witnesses and counterexamples -/

/-- Plain outdoor sample: 10 m/s on flat ground, no GPS, heading field 0. -/
def exS0 : Sample :=
  { t := fin 0, v_ms := fin 10, altitude_m := fin 0, heading_deg := fin 0,
    moving := true, device_watts := none, latitude := none, longitude := none }

/-- Second sample of the flat ride, one second later. -/
def exS1 : Sample :=
  { t := fin 1, v_ms := fin 10, altitude_m := fin 0, heading_deg := fin 0,
    moving := true, device_watts := none, latitude := none, longitude := none }

/-- Two-sample flat windless test ride. -/
def exSamples : List Sample := [exS0, exS1]

/-- Profile with explicit mass 75 kg, Crr 0.005, CdA 0.30. -/
def exProfile : Profile :=
  { total_weight := some (fin 75), bike_type := some ("road"), crr := some (fin 0.005),
    cda := some (fin 0.3), calibrated := false, calibration_mae := none, estimat := false }

/-- Calm weather: no wind, 15 deg C, 1013 hPa. -/
def exWcalm : Weather :=
  { wind_ms := fin 0, wind_dir_deg := fin 0, air_temp_c := fin 15,
    air_pressure_hpa := fin 1013 }

/-- Same conditions with a 5 m/s wind coming from bearing 0. -/
def exWhead : Weather :=
  { wind_ms := fin 5, wind_dir_deg := fin 0, air_temp_c := fin 15,
    air_pressure_hpa := fin 1013 }

/-- Sample whose altitude is NaN but which carries GPS coordinates. -/
def sNanAlt : Sample :=
  { t := fin 0, v_ms := fin 5, altitude_m := nan, heading_deg := fin 0,
    moving := true, device_watts := none, latitude := some (fin 59),
    longitude := some (fin 10) }

/-! ## C1 — non-negativity and finiteness of the power vector -/

/-- C1 (counterexample): the claim quantifies over any list of Samples,
but a NaN altitude makes `smooth_altitude`'s `sort_by(partial_cmp
... unwrap)` panic before any power element is produced, so the engine
does not return a power vector at all on this input. -/
theorem C1_cex_nan_altitude_panics :
    compute_power_with_wind [sNanAlt] exProfile exWcalm = none := by
  have hany : [sNanAlt].any (fun s => s.altitude_m.isNan) = true := by
    simp [sNanAlt]
  unfold compute_power_with_wind smooth_altitude
  simp [hany]

/-- C1 (amended): for every input whose altitude series is NaN-free (so
the altitude smoother does not panic), the engine returns a power vector
of the same length as the input, and every element of it is a finite
value `≥ 0` — the per-sample sum is clamped to `0` when non-finite and
floored at `0` otherwise, for any Profile and Weather, including
negative acceleration and downhill grades. -/
theorem C1_power_finite_nonneg (samples : List Sample) (profile : Profile)
    (weather : Weather) (h : ∀ s ∈ samples, s.altitude_m.isNan = false) :
    ∃ out : PowerOutputs, compute_power_with_wind samples profile weather = some out ∧
      out.power.length = samples.length ∧
      ∀ p ∈ out.power, ∃ x : ℝ, p = fin x ∧ 0 ≤ x := by
  obtain ⟨alt, halt⟩ := compute_power_with_wind_some profile weather h
  refine ⟨_, halt, by simp, ?_⟩
  intro p hp
  simp only [List.mem_map, List.mem_range] at hp
  obtain ⟨i, _, hi⟩ := hp
  rw [← hi]
  exact F.finClamp0_spec _

/-- C1 (witness): the amended theorem applied to the concrete flat ride. -/
theorem C1_witness :
    (∀ s ∈ exSamples, s.altitude_m.isNan = false) ∧
      (∃ out : PowerOutputs, compute_power_with_wind exSamples exProfile exWcalm = some out ∧
        out.power.length = exSamples.length ∧
        ∀ p ∈ out.power, ∃ x : ℝ, p = fin x ∧ 0 ≤ x) := by
  have h : ∀ s ∈ exSamples, s.altitude_m.isNan = false := by
    intro s hs
    simp only [exSamples, List.mem_cons, List.not_mem_nil, or_false] at hs
    rcases hs with h0 | h1
    · simp [h0, exS0]
    · simp [h1, exS1]
  exact ⟨h, C1_power_finite_nonneg exSamples exProfile exWcalm h⟩

/-! ## C5 — calibration rejection priority -/

/-- C5: a segment that is both shorter than 300 samples and has a
mismatched measured-power length is rejected by the first rule: reason
"insufficient_segment", `calibrated = false`, Crr/CdA/MAE as in the
source's early return. -/
theorem C5_insufficient_first (samples : List Sample) (measured : List F)
    (profile : Profile) (weather : Weather) (h1 : samples.length < 300)
    (_h2 : measured.length ≠ samples.length) :
    fit_cda_crr samples measured profile weather = some
      { cda := profile_cda profile, crr := profile_crr profile, mae := fin 0,
        calibrated := False, reason := some ("insufficient_segment") } := by
  unfold fit_cda_crr
  rw [if_pos h1]

/-- C5 (witness): the spec's own instance — 50 samples against 40
measured values. -/
theorem C5_witness :
    (List.replicate 50 exS0).length < 300 ∧
      (List.replicate 40 (fin 200 : F)).length ≠ (List.replicate 50 exS0).length ∧
      fit_cda_crr (List.replicate 50 exS0) (List.replicate 40 (fin 200)) exProfile exWcalm =
        some { cda := profile_cda exProfile, crr := profile_crr exProfile, mae := fin 0,
               calibrated := False, reason := some ("insufficient_segment") } := by
  refine ⟨by simp, by simp, ?_⟩
  exact C5_insufficient_first _ _ _ _ (by simp) (by simp)

/-! ## C10 — indoor power passes device watts through unchanged -/

/-- C10: whenever `device_watts` is present, `compute_indoor_power`
returns the stored value exactly — for every value, with no finiteness
or non-negativity check (a negative or NaN `device_watts` is returned
as-is, unlike the outdoor path, which only emits clamped values). -/
theorem C10_device_watts_passthrough (sample : Sample) (profile : Profile) (w : F)
    (h : sample.device_watts = some w) : compute_indoor_power sample profile = w := by
  unfold compute_indoor_power
  rw [h]

/-- C10 (witness): pass-through at a negative and at a NaN device power. -/
theorem C10_witness :
    ({ dSample with device_watts := some (fin (-50)) } : Sample).device_watts =
        some (fin (-50)) ∧
      compute_indoor_power { dSample with device_watts := some (fin (-50)) } exProfile =
        fin (-50) ∧
      compute_indoor_power { dSample with device_watts := some nan } exProfile = nan := by
  exact ⟨rfl, C10_device_watts_passthrough _ exProfile _ rfl,
    C10_device_watts_passthrough _ exProfile _ rfl⟩

/-! ## C8 — altitude smoother -/

/-- The middle of three is always one of the three. -/
lemma median3_mem (a b c : F) :
    median3 a b c = a ∨ median3 a b c = b ∨ median3 a b c = c := by
  unfold median3 fmax2 fmin2
  split_ifs <;> tauto

/-- C8 (counterexample): the claim says the smoother always succeeds on
every input series, but on a NaN altitude the source's
`sort_by(|x, y| x.partial_cmp(y).unwrap())` panics, so no output series
of length N exists for this one-element input. -/
theorem C8_cex_nan_panics : smooth_altitude [sNanAlt] = none := by
  have hany : [sNanAlt].any (fun s => s.altitude_m.isNan) = true := by
    simp [sNanAlt]
  unfold smooth_altitude
  simp [hany]

/-- C8 (amended): on every altitude series free of NaN (the smoother
panics on NaN), smoothing succeeds, preserves the length (so empty input
returns empty), and the i-th output is the median of the 3-point window
with edges repeating the boundary value — in particular it is always one
of the three window values. -/
theorem C8_smooth_altitude_spec (samples : List Sample)
    (h : ∀ s ∈ samples, s.altitude_m.isNan = false) :
    ∃ out : List F, smooth_altitude samples = some out ∧
      out.length = samples.length ∧
      ∀ i, i < samples.length →
        out.getD i nan =
          median3 (altWin samples i (-1)) (altWin samples i 0) (altWin samples i 1) ∧
        (out.getD i nan = altWin samples i (-1) ∨ out.getD i nan = altWin samples i 0 ∨
          out.getD i nan = altWin samples i 1) := by
  refine ⟨_, smooth_altitude_some h, by simp, ?_⟩
  intro i hi
  rw [getD_map_range _ _ _ hi]
  exact ⟨rfl, median3_mem _ _ _⟩

/-- Three-sample ride with a single-sample altitude spike. -/
def spikeSamples : List Sample :=
  [{ exS0 with altitude_m := fin 1 }, { exS1 with altitude_m := fin 9 },
   { exS1 with t := fin 2, altitude_m := fin 1 }]

/-- C8 (witness): the amended theorem applied to the spike series. -/
theorem C8_witness :
    (∀ s ∈ spikeSamples, s.altitude_m.isNan = false) ∧
      (∃ out : List F, smooth_altitude spikeSamples = some out ∧
        out.length = spikeSamples.length ∧
        ∀ i, i < spikeSamples.length →
          out.getD i nan = median3 (altWin spikeSamples i (-1)) (altWin spikeSamples i 0)
            (altWin spikeSamples i 1) ∧
          (out.getD i nan = altWin spikeSamples i (-1) ∨
            out.getD i nan = altWin spikeSamples i 0 ∨
            out.getD i nan = altWin spikeSamples i 1)) := by
  have h : ∀ s ∈ spikeSamples, s.altitude_m.isNan = false := by
    intro s hs
    simp only [spikeSamples, List.mem_cons, List.not_mem_nil, or_false] at hs
    rcases hs with h0 | h1 | h2
    · simp [h0, exS0]
    · simp [h1, exS1]
    · simp [h2, exS1]
  exact ⟨h, C8_smooth_altitude_spec spikeSamples h⟩

/-! ## C6 — indoor detection -/

/-- Altitudes of a list confined to `fin [lo, hi]`. -/
def altBounded (lo hi : ℝ) (l : List Sample) : Prop :=
  ∀ s ∈ l, ∃ x : ℝ, s.altitude_m = fin x ∧ lo ≤ x ∧ x ≤ hi

/-- Being a finite value within the altitude band is preserved by the
min/max scan. -/
lemma mmStep_fold_preserve (lo hi : ℝ) (l : List Sample) (hb : altBounded lo hi l) :
    ∀ st : F × F, (∃ m, st.1 = fin m ∧ lo ≤ m ∧ m ≤ hi) →
      (∃ M, st.2 = fin M ∧ lo ≤ M ∧ M ≤ hi) →
      (∃ m, (l.foldl mmStep st).1 = fin m ∧ lo ≤ m ∧ m ≤ hi) ∧
        (∃ M, (l.foldl mmStep st).2 = fin M ∧ lo ≤ M ∧ M ≤ hi) := by
  induction l with
  | nil => intro st h1 h2; exact ⟨h1, h2⟩
  | cons s t ih =>
      intro st h1 h2
      obtain ⟨x, hx, hx1, hx2⟩ := hb s (by simp)
      obtain ⟨m, hm, hm1, hm2⟩ := h1
      obtain ⟨M, hM, hM1, hM2⟩ := h2
      have hb' : altBounded lo hi t := fun u hu => hb u (by simp [hu])
      rw [List.foldl_cons]
      refine ih hb' (mmStep st s) ?_ ?_
      · unfold mmStep
        rw [hx, hm]
        by_cases hc : x < m
        · exact ⟨x, by simp [hc], hx1, hx2⟩
        · exact ⟨m, by simp [hc], hm1, hm2⟩
      · unfold mmStep
        rw [hx, hM]
        by_cases hc : M < x
        · exact ⟨x, by simp [hc], hx1, hx2⟩
        · exact ⟨M, by simp [hc], hM1, hM2⟩

/-- After scanning a non-empty band-confined list from `(inf, -inf)`,
both running extremes are finite values within the band. -/
lemma mmStep_fold_nonempty (lo hi : ℝ) (s : Sample) (t : List Sample)
    (hb : altBounded lo hi (s :: t)) :
    (∃ m, ((s :: t).foldl mmStep (pinf, ninf)).1 = fin m ∧ lo ≤ m ∧ m ≤ hi) ∧
      (∃ M, ((s :: t).foldl mmStep (pinf, ninf)).2 = fin M ∧ lo ≤ M ∧ M ≤ hi) := by
  obtain ⟨x, hx, hx1, hx2⟩ := hb s (by simp)
  have hb' : altBounded lo hi t := fun u hu => hb u (by simp [hu])
  rw [List.foldl_cons]
  have hstep : mmStep (pinf, ninf) s = (fin x, fin x) := by
    unfold mmStep
    rw [hx]
    simp [F.lt]
  rw [hstep]
  exact mmStep_fold_preserve lo hi t hb' (fin x, fin x) ⟨x, rfl, hx1, hx2⟩ ⟨x, rfl, hx1, hx2⟩

/-- A segment whose altitudes stay within a band narrower than 0.5 m is
flat in the sense of `is_indoor_session`. -/
lemma flat_altitude_of_bounds (samples : List Sample) (lo hi : ℝ)
    (hr : hi - lo < 0.5) (hb : altBounded lo hi samples) : flat_altitude samples := by
  unfold flat_altitude
  split
  · trivial
  · rename_i hlen
    rcases samples with _ | ⟨s, t⟩
    · simp at hlen
    · obtain ⟨⟨m, hm, hm1, hm2⟩, ⟨M, hM, hM1, hM2⟩⟩ := mmStep_fold_nonempty lo hi s t hb
      simp only [hm, hM, F.sub_def, F.sub_fin, F.abs_fin, F.lt_fin_iff]
      rw [abs_lt]
      constructor <;> linarith

/-- C6: any segment reaching rule 4 (at least 300 samples, matching
measured length, all measured values finite) on which no sample carries
GPS coordinates and all altitudes fit in a band narrower than 0.5 m is
rejected as an indoor session: reason "indoor_session", not calibrated. -/
theorem C6_indoor_detection (samples : List Sample) (measured : List F)
    (profile : Profile) (weather : Weather) (lo hi : ℝ)
    (h1 : 300 ≤ samples.length) (h2 : measured.length = samples.length)
    (h3 : ∀ x ∈ measured, x.isFinite = true)
    (hgps : ∀ s ∈ samples, s.latitude = none ∧ s.longitude = none)
    (hr : hi - lo < 0.5) (hb : altBounded lo hi samples) :
    fit_cda_crr samples measured profile weather = some
      { cda := profile_cda profile, crr := profile_crr profile, mae := fin 0,
        calibrated := False, reason := some ("indoor_session") } := by
  unfold fit_cda_crr
  rw [if_neg (by omega)]
  rw [if_neg (by omega)]
  have hfin : (measured.any (fun x => !x.isFinite)) = false := by
    simp only [List.any_eq_false]
    intro x hx
    simp [h3 x hx]
  rw [if_neg (by simp [hfin])]
  rw [if_pos ?_]
  refine ⟨?_, flat_altitude_of_bounds samples lo hi hr hb⟩
  simp only [List.all_eq_true]
  intro s hs
  obtain ⟨hla, hlo⟩ := hgps s hs
  simp [hla, hlo]

/-- Indoor-looking sample list: no GPS, constant altitude. -/
def indoorSamples : List Sample := List.replicate 300 exS0

/-- C6 (witness): the theorem applied to 300 GPS-less constant-altitude
samples with finite measured power. -/
theorem C6_witness :
    fit_cda_crr indoorSamples (List.replicate 300 (fin 200)) exProfile exWcalm = some
      { cda := profile_cda exProfile, crr := profile_crr exProfile, mae := fin 0,
        calibrated := False, reason := some ("indoor_session") } := by
  have hlen : indoorSamples.length = 300 := List.length_replicate 300 exS0
  refine C6_indoor_detection indoorSamples _ exProfile exWcalm 0 0 (by omega)
    (by rw [hlen]; exact List.length_replicate 300 (fin 200)) ?_ ?_ (by norm_num) ?_
  · intro x hx
    rw [List.eq_of_mem_replicate hx]
    rfl
  · intro s hs
    have hs' : s ∈ List.replicate 300 exS0 := hs
    rw [List.eq_of_mem_replicate hs']
    exact ⟨rfl, rfl⟩
  · intro s hs
    have hs' : s ∈ List.replicate 300 exS0 := hs
    rw [List.eq_of_mem_replicate hs']
    exact ⟨0, rfl, le_refl 0, le_refl 0⟩

/-! ## C4 — calibration acceptance threshold -/

/-- With matching lengths and NaN-free altitudes, one grid-search step
never takes an early exit: the in-loop length guard cannot fire and the
model power series always exists. -/
lemma grid_step_ok {samples : List Sample} {measured : List F} (profile : Profile)
    (weather : Weather) (fixed_cda : F) (h2 : measured.length = samples.length)
    (h5 : ∀ s ∈ samples, s.altitude_m.isNan = false) (st : F × F) (c : ℝ) :
    ∃ st' : F × F,
      grid_step samples measured profile weather fixed_cda st c = Except.ok st' := by
  unfold grid_step
  obtain ⟨alt, halt⟩ := compute_power_with_wind_some
    { profile with crr := some (fin c), cda := some fixed_cda } weather h5
  have hcp : compute_power samples
      { profile with crr := some (fin c), cda := some fixed_cda } weather =
      some ((List.range samples.length).map (fun i => power_at weather samples alt
        { profile with crr := some (fin c), cda := some fixed_cda } i)) := by
    unfold compute_power
    rw [halt]
    rfl
  have hlen : ((List.range samples.length).map (fun i => power_at weather samples alt
      { profile with crr := some (fin c), cda := some fixed_cda } i)).length =
      measured.length := by
    simp [h2]
  simp only [hcp]
  rw [if_neg (by omega)]
  rcases hm : mae_of ((List.range samples.length).map (fun i => power_at weather samples alt
      { profile with crr := some (fin c), cda := some fixed_cda } i)) measured with _ | mae
  · exact ⟨st, by simp only [hm]⟩
  · by_cases hc : F.lt mae st.1
    · exact ⟨(mae, fin c), by simp only [hm]; rw [if_pos hc]⟩
    · exact ⟨st, by simp only [hm]; rw [if_neg hc]⟩

/-- A fold whose every step succeeds succeeds. -/
lemma foldlM_ok {α β : Type} (f : β → α → Except (Option CalibrationResult) β) :
    ∀ (l : List α) (st : β), (∀ (s : β) (c : α), c ∈ l → ∃ s', f s c = Except.ok s') →
      ∃ st' : β, l.foldlM f st = Except.ok st' := by
  intro l
  induction l with
  | nil => intro st _; exact ⟨st, rfl⟩
  | cons c t ih =>
      intro st hstep
      obtain ⟨st1, h1⟩ := hstep st c (by simp)
      rw [List.foldlM_cons, h1]
      obtain ⟨st', h'⟩ := ih st1 (fun s c hc => hstep s c (by simp [hc]))
      exact ⟨st', by simpa using h'⟩

/-- C4 (amended): for every calibration input that passes all four
rejection rules and whose altitudes are NaN-free (a NaN altitude would
panic inside the grid search), the grid search completes with best state
`(best_MAE, best_Crr)` and `fit_cda_crr` returns a result with
`reason = None` whose `calibrated` flag holds exactly when the average
measured power is finite and `best_MAE < 0.10 *` that average. -/
theorem C4_acceptance_threshold (samples : List Sample) (measured : List F)
    (profile : Profile) (weather : Weather)
    (h1 : 300 ≤ samples.length) (h2 : measured.length = samples.length)
    (h3 : ∀ x ∈ measured, x.isFinite = true)
    (h4 : ¬ is_indoor_session samples)
    (h5 : ∀ s ∈ samples, s.altitude_m.isNan = false) :
    ∃ bm bc : F,
      grid_candidates.foldlM
          (grid_step samples measured profile weather (profile_cda profile))
          (pinf, profile_crr profile) = Except.ok (bm, bc) ∧
      fit_cda_crr samples measured profile weather = some
        { cda := profile_cda profile, crr := bc, mae := bm,
          calibrated := (avg_measured measured).isFinite = true ∧
            F.lt bm (fin 0.10 * avg_measured measured),
          reason := none } := by
  obtain ⟨st', hfold⟩ := foldlM_ok
    (grid_step samples measured profile weather (profile_cda profile)) grid_candidates
    (pinf, profile_crr profile)
    (fun s c _ => grid_step_ok profile weather (profile_cda profile) h2 h5 s c)
  obtain ⟨bm, bc⟩ := st'
  refine ⟨bm, bc, hfold, ?_⟩
  unfold fit_cda_crr
  rw [if_neg (by omega), if_neg (by omega)]
  have hfin : (measured.any (fun x => !x.isFinite)) = false := by
    simp only [List.any_eq_false]
    intro x hx
    simp [h3 x hx]
  rw [if_neg (by simp [hfin]), if_neg h4]
  rw [hfold]

/-- Outdoor-looking sample: the flat ride sample with GPS coordinates. -/
def sGps : Sample := { exS0 with latitude := some (fin 59), longitude := some (fin 10) }

/-- A 300-sample GPS ride (passes every rejection rule). -/
def gpsSamples : List Sample := List.replicate 300 sGps

/-- C4 (witness): the amended theorem applied to the 300-sample GPS ride
with a constant finite measured series. -/
theorem C4_witness :
    ∃ bm bc : F,
      grid_candidates.foldlM
          (grid_step gpsSamples (List.replicate 300 (fin 200)) exProfile exWcalm
            (profile_cda exProfile))
          (pinf, profile_crr exProfile) = Except.ok (bm, bc) ∧
      fit_cda_crr gpsSamples (List.replicate 300 (fin 200)) exProfile exWcalm = some
        { cda := profile_cda exProfile, crr := bc, mae := bm,
          calibrated := (avg_measured (List.replicate 300 (fin 200))).isFinite = true ∧
            F.lt bm (fin 0.10 * avg_measured (List.replicate 300 (fin 200))),
          reason := none } := by
  have hlen : gpsSamples.length = 300 := List.length_replicate 300 sGps
  refine C4_acceptance_threshold gpsSamples _ exProfile exWcalm (by omega)
    (by rw [hlen]; exact List.length_replicate 300 (fin 200)) ?_ ?_ ?_
  · intro x hx
    rw [List.eq_of_mem_replicate hx]
    rfl
  · intro hind
    obtain ⟨hall, _⟩ := hind
    simp only [List.all_eq_true] at hall
    have hmem : sGps ∈ gpsSamples := by
      have : sGps ∈ List.replicate 300 sGps := List.mem_replicate.2 ⟨by omega, rfl⟩
      exact this
    have := hall sGps hmem
    simp [sGps] at this
  · intro s hs
    have hs' : s ∈ List.replicate 300 sGps := hs
    rw [List.eq_of_mem_replicate hs']
    rfl

/-- C4 (counterexample): an input that passes all four rejection rules
but carries NaN altitudes; the grid search calls `compute_power`, whose
altitude smoother panics, so `fit_cda_crr` returns no CalibrationResult
at all instead of the claimed `calibrated`/reason combination. -/
theorem C4_cex_nan_altitude :
    ¬ (List.replicate 300 sNanAlt).length < 300 ∧
      (List.replicate 300 (fin 200 : F)).length = (List.replicate 300 sNanAlt).length ∧
      (∀ x ∈ (List.replicate 300 (fin 200 : F)), x.isFinite = true) ∧
      ¬ is_indoor_session (List.replicate 300 sNanAlt) ∧
      fit_cda_crr (List.replicate 300 sNanAlt) (List.replicate 300 (fin 200)) exProfile
        exWcalm = none := by
  have hlenS : (List.replicate 300 sNanAlt).length = 300 := List.length_replicate 300 sNanAlt
  have hlenM : (List.replicate 300 (fin 200 : F)).length = 300 :=
    List.length_replicate 300 (fin 200)
  have hnein : ¬ is_indoor_session (List.replicate 300 sNanAlt) := by
    intro hind
    obtain ⟨hall, _⟩ := hind
    simp only [List.all_eq_true] at hall
    have := hall sNanAlt (List.mem_replicate.2 ⟨by omega, rfl⟩)
    simp [sNanAlt] at this
  refine ⟨by omega, by omega, ?_, hnein, ?_⟩
  · intro x hx
    rw [List.eq_of_mem_replicate hx]
    rfl
  · have hcpnone : ∀ p : Profile, compute_power (List.replicate 300 sNanAlt) p exWcalm = none := by
      intro p
      unfold compute_power compute_power_with_wind
      rw [if_neg (by omega)]
      have hsm : smooth_altitude (List.replicate 300 sNanAlt) = none := by
        unfold smooth_altitude
        have hany : (List.replicate 300 sNanAlt).any (fun s => s.altitude_m.isNan) = true := by
          refine List.any_eq_true.2 ⟨sNanAlt, List.mem_replicate.2 ⟨by omega, rfl⟩, rfl⟩
        rw [hany]
        simp
      rw [hsm]
      rfl
    have hstep : grid_step (List.replicate 300 sNanAlt) (List.replicate 300 (fin 200))
        exProfile exWcalm (profile_cda exProfile) (pinf, profile_crr exProfile)
        ((3 : ℝ) / 1000) = Except.error none := by
      unfold grid_step
      rw [hcpnone]
    unfold fit_cda_crr
    rw [if_neg (by omega), if_neg (by omega)]
    have hfin : ((List.replicate 300 (fin 200 : F)).any (fun x => !x.isFinite)) = false := by
      simp only [List.any_eq_false]
      intro x hx
      rw [List.eq_of_mem_replicate hx]
      exact fun h => Bool.noConfusion h
    rw [if_neg (by rw [hfin]; exact Bool.false_ne_true), if_neg hnein]
    have hgc : grid_candidates = ((3 : ℝ) / 1000) ::
        (([4, 5, 6, 7, 8] : List ℝ).map (fun x => x / 1000)) := rfl
    rw [hgc, List.foldlM_cons, hstep]
    rfl

/-! ## C7 — heading selection -/

/-- Overwrite the static heading field of a sample. -/
def setHeading (c : F) (s : Sample) : Sample := { s with heading_deg := c }

/-- Fields other than `heading_deg` are unchanged by `setHeading`, even
through the defaulted list indexing. -/
lemma getD_map_setHeading_field {α : Type} (g : Sample → α) (c : F)
    (hg : ∀ s, g (setHeading c s) = g s) (l : List Sample) (i : Nat) :
    g ((l.map (setHeading c)).getD i dSample) = g (l.getD i dSample) := by
  rcases h : l[i]? with _ | s
  · have h' : (l.map (setHeading c))[i]? = none := by
      simp [List.getElem?_map, h]
    rw [List.getD_eq_getElem?_getD, List.getD_eq_getElem?_getD, h, h']
  · have h' : (l.map (setHeading c))[i]? = some (setHeading c s) := by
      simp [List.getElem?_map, h]
    rw [List.getD_eq_getElem?_getD, List.getD_eq_getElem?_getD, h, h']
    exact hg s

lemma t_map_setHeading (l : List Sample) (c : F) (i : Nat) :
    ((l.map (setHeading c)).getD i dSample).t = (l.getD i dSample).t :=
  getD_map_setHeading_field Sample.t c (fun _ => rfl) l i

lemma v_map_setHeading (l : List Sample) (c : F) (i : Nat) :
    ((l.map (setHeading c)).getD i dSample).v_ms = (l.getD i dSample).v_ms :=
  getD_map_setHeading_field Sample.v_ms c (fun _ => rfl) l i

lemma alt_map_setHeading (l : List Sample) (c : F) (i : Nat) :
    ((l.map (setHeading c)).getD i dSample).altitude_m = (l.getD i dSample).altitude_m :=
  getD_map_setHeading_field Sample.altitude_m c (fun _ => rfl) l i

lemma lat_map_setHeading (l : List Sample) (c : F) (i : Nat) :
    ((l.map (setHeading c)).getD i dSample).latitude = (l.getD i dSample).latitude :=
  getD_map_setHeading_field Sample.latitude c (fun _ => rfl) l i

lemma lon_map_setHeading (l : List Sample) (c : F) (i : Nat) :
    ((l.map (setHeading c)).getD i dSample).longitude = (l.getD i dSample).longitude :=
  getD_map_setHeading_field Sample.longitude c (fun _ => rfl) l i

/-- The bearing only reads the four coordinates. -/
lemma heading_to_congr {s1 s2 t1 t2 : Sample} (h1 : s1.latitude = t1.latitude)
    (h2 : s1.longitude = t1.longitude) (h3 : s2.latitude = t2.latitude)
    (h4 : s2.longitude = t2.longitude) : heading_to s1 s2 = heading_to t1 t2 := by
  unfold heading_to
  rw [h1, h2, h3, h4]

lemma dt_at_map_setHeading (l : List Sample) (c : F) (i : Nat) :
    dt_at (l.map (setHeading c)) i = dt_at l i := by
  unfold dt_at
  simp only [t_map_setHeading]

lemma vprev_at_map_setHeading (l : List Sample) (c : F) (i : Nat) :
    vprev_at (l.map (setHeading c)) i = vprev_at l i := by
  unfold vprev_at
  simp only [v_map_setHeading]

lemma v_at_map_setHeading (l : List Sample) (c : F) (i : Nat) :
    v_at (l.map (setHeading c)) i = v_at l i := by
  unfold v_at
  simp only [v_map_setHeading]

lemma vmid_at_map_setHeading (l : List Sample) (c : F) (i : Nat) :
    vmid_at (l.map (setHeading c)) i = vmid_at l i := by
  unfold vmid_at
  rw [v_at_map_setHeading, vprev_at_map_setHeading]

lemma a_at_map_setHeading (l : List Sample) (c : F) (i : Nat) :
    a_at (l.map (setHeading c)) i = a_at l i := by
  unfold a_at
  rw [v_at_map_setHeading, vprev_at_map_setHeading, dt_at_map_setHeading]

lemma ds_at_map_setHeading (l : List Sample) (c : F) (i : Nat) :
    ds_at (l.map (setHeading c)) i = ds_at l i := by
  unfold ds_at
  rw [vmid_at_map_setHeading, dt_at_map_setHeading]

lemma slope_at_map_setHeading (l : List Sample) (alt : List F) (c : F) (i : Nat) :
    slope_at (l.map (setHeading c)) alt i = slope_at l alt i := by
  unfold slope_at
  rw [ds_at_map_setHeading]

lemma heading_at_map_setHeading (l : List Sample) (c : F) (i : Nat) :
    heading_at (l.map (setHeading c)) i = heading_at l i := by
  unfold heading_at
  rw [List.length_map]
  by_cases h : i + 1 < l.length
  · rw [if_pos h, if_pos h]
    rw [heading_to_congr (lat_map_setHeading l c i) (lon_map_setHeading l c i)
      (lat_map_setHeading l c (i + 1)) (lon_map_setHeading l c (i + 1))]
  · rw [if_neg h, if_neg h]

lemma wind_rel_at_map_setHeading (w : Weather) (l : List Sample) (c : F) (i : Nat) :
    wind_rel_at w (l.map (setHeading c)) i = wind_rel_at w l i := by
  unfold wind_rel_at
  rw [heading_at_map_setHeading]

lemma v_rel_at_map_setHeading (w : Weather) (l : List Sample) (c : F) (i : Nat) :
    v_rel_at w (l.map (setHeading c)) i = v_rel_at w l i := by
  unfold v_rel_at
  rw [vmid_at_map_setHeading, wind_rel_at_map_setHeading]

lemma power_at_map_setHeading (w : Weather) (l : List Sample) (alt : List F)
    (p : Profile) (c : F) (i : Nat) :
    power_at w (l.map (setHeading c)) alt p i = power_at w l alt p i := by
  unfold power_at p_roll_at p_aero_at p_grav_at p_acc_at
  rw [vmid_at_map_setHeading, v_rel_at_map_setHeading, slope_at_map_setHeading,
    a_at_map_setHeading]

lemma altWin_map_setHeading (l : List Sample) (c : F) (i : Nat) (k : Int) :
    altWin (l.map (setHeading c)) i k = altWin l i k := by
  unfold altWin
  rw [List.length_map]
  by_cases h : 0 ≤ (i : Int) + k ∧ ((i : Int) + k).toNat < l.length
  · rw [if_pos h, if_pos h, alt_map_setHeading]
  · rw [if_neg h, if_neg h, alt_map_setHeading]

lemma smooth_altitude_map_setHeading (l : List Sample) (c : F) :
    smooth_altitude (l.map (setHeading c)) = smooth_altitude l := by
  unfold smooth_altitude
  have hemp : (l.map (setHeading c)).isEmpty = l.isEmpty := by
    cases l <;> rfl
  have hany : (l.map (setHeading c)).any (fun s => s.altitude_m.isNan) =
      l.any (fun s => s.altitude_m.isNan) := by
    rw [List.any_map]
    rfl
  rw [hemp, hany, List.length_map]
  by_cases he : l.isEmpty
  · rw [if_pos he, if_pos he]
  · rw [if_neg he, if_neg he]
    by_cases ha : l.any (fun s => s.altitude_m.isNan) = true
    · rw [if_pos ha, if_pos ha]
    · rw [if_neg ha, if_neg ha]
      congr 1
      refine List.map_congr_left ?_
      intro i _
      rw [altWin_map_setHeading, altWin_map_setHeading, altWin_map_setHeading]

/-- C7 (counterexample input): flat ride whose samples carry the finite
static heading 90 degrees and no GPS, in a 5 m/s wind from bearing 0. -/
def headSamples : List Sample :=
  [{ exS0 with heading_deg := fin 90 }, { exS1 with heading_deg := fin 90 }]

/-- C7 (counterexample): the claim says the finite per-sample heading
(90 degrees here) is used first, which would give an along-path wind
component of `5 * cos(90 deg) = 0`; the code ignores the heading field,
falls back to the 0-degree default (no GPS), and emits `wind_rel = 5`. -/
theorem C7_cex_heading_field_ignored :
    (∃ o : PowerOutputs, compute_power_with_wind headSamples exProfile exWhead = some o ∧
      o.wind_rel.getD 0 nan = fin 5) ∧
    headwind_component exWhead ((headSamples.getD 0 dSample).heading_deg) = fin 0 ∧
    (5 : ℝ) ≠ 0 := by
  have hnan : ∀ s ∈ headSamples, s.altitude_m.isNan = false := by
    intro s hs
    simp only [headSamples, List.mem_cons, List.not_mem_nil, or_false] at hs
    rcases hs with h0 | h1
    · simp [h0, exS0]
    · simp [h1, exS1]
  obtain ⟨alt, halt⟩ := compute_power_with_wind_some exProfile exWhead hnan
  constructor
  · refine ⟨_, halt, ?_⟩
    have h02 : (0 : Nat) < headSamples.length := by simp [headSamples]
    rw [getD_map_range _ _ _ h02]
    have hhead : heading_at headSamples 0 = fin 0 := rfl
    unfold wind_rel_at
    rw [hhead]
    unfold headwind_component exWhead
    simp only [F.sub_def, F.sub_fin, F.remEuclid_fin, F.toRadians_fin, F.cosF_fin,
      F.mul_def, F.mul_fin, F.fin.injEq]
    have harg : ((0 : ℝ) + -0 - 360 * (⌊((0 : ℝ) + -0) / 360⌋ : ℝ)) * (Real.pi / 180) = 0 := by
      norm_num
    rw [harg, Real.cos_zero]
    norm_num
  · constructor
    · have hh : (headSamples.getD 0 dSample).heading_deg = fin 90 := rfl
      rw [hh]
      unfold headwind_component exWhead
      simp only [F.sub_def, F.sub_fin, F.remEuclid_fin, F.toRadians_fin, F.cosF_fin,
        F.mul_def, F.mul_fin, F.fin.injEq]
      have hfl : (⌊((90 : ℝ) + -0) / 360⌋ : ℤ) = 0 := by
        rw [Int.floor_eq_zero_iff]
        constructor <;> norm_num
      have harg : ((90 : ℝ) + -0 - 360 * ((⌊((90 : ℝ) + -0) / 360⌋ : ℤ) : ℝ)) *
          (Real.pi / 180) = Real.pi / 2 := by
        rw [hfl]
        push_cast
        ring
      rw [harg, Real.cos_pi_div_two]
      norm_num
    · norm_num

/-- C7 (amended): the heading used by the power decomposition at sample
`i` is the great-circle bearing from fix `i` to fix `i+1` when sample
`i` is not the last one (falling back to 0 degrees when a coordinate is
missing), and 0 degrees for the last sample; the sample's own
`heading_deg` field is never consulted — rewriting every heading field
leaves the entire engine output unchanged. -/
theorem C7_heading_semantics (samples : List Sample) (profile : Profile)
    (weather : Weather) (c : F) :
    compute_power_with_wind (samples.map (setHeading c)) profile weather =
      compute_power_with_wind samples profile weather ∧
    ∀ i : Nat, heading_at samples i =
      (if i + 1 < samples.length then
        heading_to (samples.getD i dSample) (samples.getD (i + 1) dSample)
      else none).getD (fin 0) := by
  constructor
  · unfold compute_power_with_wind
    rw [List.length_map, smooth_altitude_map_setHeading]
    simp only [power_at_map_setHeading, wind_rel_at_map_setHeading, v_rel_at_map_setHeading]
  · intro i
    rfl

/-! ## C3 — air density -/

/-- The engine reads nothing of the Weather except the two wind fields:
two weathers with equal wind speed and direction give identical output. -/
lemma compute_power_with_wind_wind_congr (samples : List Sample) (profile : Profile)
    {w1 w2 : Weather} (hw : w1.wind_ms = w2.wind_ms)
    (hd : w1.wind_dir_deg = w2.wind_dir_deg) :
    compute_power_with_wind samples profile w1 =
      compute_power_with_wind samples profile w2 := by
  have hcomp : headwind_component w1 = headwind_component w2 := by
    funext h
    unfold headwind_component
    rw [hw, hd]
  unfold compute_power_with_wind power_at p_aero_at v_rel_at wind_rel_at
  simp only [hcomp]

/-- A clamp into `[lo, hi]` lands in the band unless it produces NaN. -/
lemma clamp_band (y : F) (x lo hi : ℝ) (hlohi : lo ≤ hi)
    (h : F.clamp y lo hi = fin x) : lo ≤ x ∧ x ≤ hi := by
  cases y with
  | fin v =>
      simp only [F.clamp_fin, F.fin.injEq] at h
      subst h
      exact ⟨le_min (le_max_right v lo) hlohi, min_le_right _ _⟩
  | pinf =>
      simp only [F.clamp, F.fin.injEq] at h
      subst h
      exact ⟨hlohi, le_refl hi⟩
  | ninf =>
      simp only [F.clamp, F.fin.injEq] at h
      subst h
      exact ⟨le_refl lo, hlohi⟩
  | nan => simp [F.clamp] at h

/-- Hot low-pressure weather, same (zero) wind as `exWcalm`. -/
def exWhot : Weather :=
  { wind_ms := fin 0, wind_dir_deg := fin 0, air_temp_c := fin 40,
    air_pressure_hpa := fin 700 }

/-- C3 (counterexample): two weathers whose derived (ideal-gas, clamped)
densities differ — about 1.22 vs the clamped floor 0.9 — produce
bit-identical engine output, because the aerodynamic term uses the fixed
constant `RHO = 1.225` and never the Weather-derived density; so the
computed power does not depend on `air_temp_c` / `air_pressure_hpa`. -/
theorem C3_cex_density_unused :
    compute_power_with_wind exSamples exProfile exWcalm =
      compute_power_with_wind exSamples exProfile exWhot ∧
    air_density exWcalm.air_temp_c exWcalm.air_pressure_hpa ≠
      air_density exWhot.air_temp_c exWhot.air_pressure_hpa := by
  constructor
  · exact compute_power_with_wind_wind_congr exSamples exProfile rfl rfl
  · have hd1 : air_density (fin 15) (fin 1013) = fin (101300 / (287.05 * 288.15)) := by
      unfold air_density
      simp only [F.mul_def, F.mul_fin, F.add_def, F.add_fin, F.fmax_fin, F.div_def]
      rw [max_eq_left (by norm_num), max_eq_left (by norm_num)]
      rw [F.div_fin _ _ (by norm_num)]
      simp only [F.clamp_fin]
      rw [max_eq_left (by norm_num), min_eq_left (by norm_num)]
      norm_num
    have hd2 : air_density (fin 40) (fin 700) = fin 0.9 := by
      unfold air_density
      simp only [F.mul_def, F.mul_fin, F.add_def, F.add_fin, F.fmax_fin, F.div_def]
      rw [max_eq_left (by norm_num), max_eq_left (by norm_num)]
      rw [F.div_fin _ _ (by norm_num)]
      simp only [F.clamp_fin]
      rw [max_eq_right (by norm_num), min_eq_left (by norm_num)]
    have h1 : exWcalm.air_temp_c = fin 15 := rfl
    have h2 : exWcalm.air_pressure_hpa = fin 1013 := rfl
    have h3 : exWhot.air_temp_c = fin 40 := rfl
    have h4 : exWhot.air_pressure_hpa = fin 700 := rfl
    rw [h1, h2, h3, h4, hd1, hd2]
    intro h
    simp only [F.fin.injEq] at h
    norm_num at h

/-- C3 (amended): the aerodynamic term of the power decomposition uses
the fixed standard density `RHO = 1.225`; the Weather-derived ideal-gas
density (`air_density`, clamped to 0.9-1.4 whenever it yields a finite
value) is dead code, and consequently the engine output is independent
of `air_temp_c` and `air_pressure_hpa`: weathers agreeing on wind speed
and direction give identical outputs. -/
theorem C3_power_independent_of_density (samples : List Sample) (profile : Profile)
    (w1 w2 : Weather) (hw : w1.wind_ms = w2.wind_ms)
    (hd : w1.wind_dir_deg = w2.wind_dir_deg) :
    compute_power_with_wind samples profile w1 =
      compute_power_with_wind samples profile w2 ∧
    ∀ (t p : F) (x : ℝ), air_density t p = fin x → 0.9 ≤ x ∧ x ≤ 1.4 := by
  refine ⟨compute_power_with_wind_wind_congr samples profile hw hd, ?_⟩
  intro t p x h
  unfold air_density at h
  exact clamp_band _ x 0.9 1.4 (by norm_num) h

/-- C3 (witness): the amended theorem applied to the calm/hot pair. -/
theorem C3_witness :
    compute_power_with_wind exSamples exProfile exWcalm =
      compute_power_with_wind exSamples exProfile exWhot ∧
    ∀ (t p : F) (x : ℝ), air_density t p = fin x → 0.9 ≤ x ∧ x ≤ 1.4 :=
  C3_power_independent_of_density exSamples exProfile exWcalm exWhot rfl rfl

/-! ## C2 — effect of the along-path wind component -/

/-- The defensive clamp is the identity on finite non-negative values. -/
lemma finClamp0_eval (x : ℝ) (h : 0 ≤ x) : F.finClamp0 (fin x) = fin x := by
  simp [F.finClamp0, F.isFinite, F.fmax, max_eq_left h]

/-- Evaluated aerodynamic term at a finite non-negative relative
airspeed. -/
lemma p_aero_eval (w : Weather) (samples : List Sample) (profile : Profile) (i : Nat)
    (c u : ℝ) (hcda : cda_of profile = fin c) (hvr : v_rel_at w samples i = fin u)
    (hu : 0 ≤ u) (hc : 0 ≤ c) :
    p_aero_at w samples profile i = fin (0.5 * RHO * c * (u * u * u)) := by
  have hR : (0 : ℝ) ≤ RHO := by norm_num [RHO]
  unfold p_aero_at drag_watt
  rw [hvr, hcda]
  simp only [F.fmax_fin]
  rw [max_eq_left hu]
  simp only [F.mul_def, F.mul_fin, F.cube_fin]
  exact finClamp0_eval _ (mul_nonneg (mul_nonneg (mul_nonneg (by norm_num) hR) hc)
    (mul_nonneg (mul_nonneg hu hu) hu))

/-- Strict monotonicity of the aerodynamic power in the relative
airspeed (positive drag coefficient, non-negative speeds). -/
lemma drag_strict (c u1 u2 : ℝ) (hc : 0 < c) (h2 : 0 ≤ u2) (h12 : u2 < u1) :
    0.5 * RHO * c * (u2 * u2 * u2) < 0.5 * RHO * c * (u1 * u1 * u1) := by
  have hcube : u2 * u2 * u2 < u1 * u1 * u1 := by
    rw [show u2 * u2 * u2 = u2 ^ 3 from by ring, show u1 * u1 * u1 = u1 ^ 3 from by ring]
    exact pow_lt_pow_left₀ h12 h2 (by norm_num)
  have hpos : (0 : ℝ) < 0.5 * RHO * c := by
    have hR : (0 : ℝ) < RHO := by norm_num [RHO]
    nlinarith
  exact mul_lt_mul_of_pos_left hcube hpos

/-- Core monotone-wind fact about the code: holding everything else
fixed at sample `i` (finite midpoint speed, finite gravity and
acceleration terms, positive drag coefficient), a strictly larger
along-path wind component `wind_rel` — positive = headwind in this code
— strictly DECREASES `v_rel` and the aerodynamic term, and hence the
emitted power, as long as the larger component does not exceed the
midpoint speed. -/
lemma headwind_decrease_core (samples : List Sample) (alt : List F) (profile : Profile)
    (w1 w2 : Weather) (i : Nat) (hw1 hw2 vm c g ac : ℝ)
    (hsm : smooth_altitude samples = some alt) (hi : i < samples.length)
    (hH1 : wind_rel_at w1 samples i = fin hw1)
    (hH2 : wind_rel_at w2 samples i = fin hw2)
    (hlt : hw1 < hw2) (hclear : hw2 ≤ vm)
    (hvm : vmid_at samples i = fin vm) (_hvmpos : 0 < vm)
    (hcda : cda_of profile = fin c) (hcpos : 0 < c)
    (hg : p_grav_at samples alt profile i = fin g)
    (hac : p_acc_at samples profile i = fin ac) :
    ∃ o1 o2 : PowerOutputs,
      compute_power_with_wind samples profile w1 = some o1 ∧
      compute_power_with_wind samples profile w2 = some o2 ∧
      o1.v_rel.getD i nan = fin (vm - hw1) ∧ o2.v_rel.getD i nan = fin (vm - hw2) ∧
      F.lt (o2.v_rel.getD i nan) (o1.v_rel.getD i nan) ∧
      F.lt (p_aero_at w2 samples profile i) (p_aero_at w1 samples profile i) ∧
      F.lt (o2.power.getD i nan) (o1.power.getD i nan) := by
  have hne : ¬ samples.length = 0 := by omega
  have hcw : ∀ w : Weather, compute_power_with_wind samples profile w =
      some { power := (List.range samples.length).map
               (fun j => power_at w samples alt profile j)
           , wind_rel := (List.range samples.length).map
               (fun j => wind_rel_at w samples j)
           , v_rel := (List.range samples.length).map
               (fun j => v_rel_at w samples j) } := by
    intro w
    unfold compute_power_with_wind
    rw [if_neg hne]
    simp only [hsm]
  have hv1 : v_rel_at w1 samples i = fin (vm - hw1) := by
    unfold v_rel_at
    rw [hvm, hH1]
    simp only [F.sub_def, F.sub_fin, F.fmax_fin]
    rw [max_eq_left (by linarith)]
    norm_num [sub_eq_add_neg]
  have hv2 : v_rel_at w2 samples i = fin (vm - hw2) := by
    unfold v_rel_at
    rw [hvm, hH2]
    simp only [F.sub_def, F.sub_fin, F.fmax_fin]
    rw [max_eq_left (by linarith)]
    norm_num [sub_eq_add_neg]
  have ha1 : p_aero_at w1 samples profile i = fin (0.5 * RHO * c *
      ((vm - hw1) * (vm - hw1) * (vm - hw1))) :=
    p_aero_eval w1 samples profile i c (vm - hw1) hcda hv1 (by linarith) (le_of_lt hcpos)
  have ha2 : p_aero_at w2 samples profile i = fin (0.5 * RHO * c *
      ((vm - hw2) * (vm - hw2) * (vm - hw2))) :=
    p_aero_eval w2 samples profile i c (vm - hw2) hcda hv2 (by linarith) (le_of_lt hcpos)
  have haerolt : 0.5 * RHO * c * ((vm - hw2) * (vm - hw2) * (vm - hw2)) <
      0.5 * RHO * c * ((vm - hw1) * (vm - hw1) * (vm - hw1)) :=
    drag_strict c (vm - hw1) (vm - hw2) hcpos (by linarith) (by linarith)
  obtain ⟨r, hr, hrn⟩ := F.finClamp0_spec (mass_of profile * fin G * crr_of profile *
    F.fmax (vmid_at samples i) (fin 0))
  have hroll : p_roll_at samples profile i = fin r := hr
  have hgn : 0 ≤ g := by
    unfold p_grav_at at hg
    exact F.fmax_zero_fin hg
  have hacn : 0 ≤ ac := by
    unfold p_acc_at at hac
    exact F.fmax_zero_fin hac
  have haeron2 : 0 ≤ 0.5 * RHO * c * ((vm - hw2) * (vm - hw2) * (vm - hw2)) := by
    have hR : (0 : ℝ) ≤ RHO := by norm_num [RHO]
    have hu : (0 : ℝ) ≤ vm - hw2 := by linarith
    exact mul_nonneg (mul_nonneg (mul_nonneg (by norm_num) hR) (le_of_lt hcpos))
      (mul_nonneg (mul_nonneg hu hu) hu)
  have hp : ∀ (w : Weather) (av : ℝ), p_aero_at w samples profile i = fin av → 0 ≤ av →
      power_at w samples alt profile i = fin (r + av + g + ac) := by
    intro w av hav havn
    unfold power_at
    rw [hroll, hav, hg, hac]
    simp only [F.add_def, F.add_fin]
    exact finClamp0_eval _ (by linarith)
  have hp1 := hp w1 _ ha1 (by linarith)
  have hp2 := hp w2 _ ha2 haeron2
  refine ⟨_, _, hcw w1, hcw w2, ?_, ?_, ?_, ?_, ?_⟩
  · simp only [getD_map_range _ _ _ hi]
    exact hv1
  · simp only [getD_map_range _ _ _ hi]
    exact hv2
  · simp only [getD_map_range _ _ _ hi]
    rw [hv1, hv2]
    simp only [F.lt_fin_iff]
    linarith
  · rw [ha1, ha2]
    simp only [F.lt_fin_iff]
    exact haerolt
  · simp only [getD_map_range _ _ _ hi]
    rw [hp1, hp2]
    simp only [F.lt_fin_iff]
    linarith

/-! Concrete evaluations on the flat windless/headwind test ride. -/

lemma ex_heading : heading_at exSamples 0 = fin 0 := rfl

lemma ex_wind_calm : wind_rel_at exWcalm exSamples 0 = fin 0 := by
  unfold wind_rel_at
  rw [ex_heading]
  unfold headwind_component exWcalm
  simp only [F.sub_def, F.sub_fin, F.remEuclid_fin, F.toRadians_fin, F.cosF_fin,
    F.mul_def, F.mul_fin, F.fin.injEq]
  norm_num

lemma ex_wind_head : wind_rel_at exWhead exSamples 0 = fin 5 := by
  unfold wind_rel_at
  rw [ex_heading]
  unfold headwind_component exWhead
  simp only [F.sub_def, F.sub_fin, F.remEuclid_fin, F.toRadians_fin, F.cosF_fin,
    F.mul_def, F.mul_fin, F.fin.injEq]
  have harg : ((0 : ℝ) + -0 - 360 * (⌊((0 : ℝ) + -0) / 360⌋ : ℝ)) * (Real.pi / 180) = 0 := by
    norm_num
  rw [harg, Real.cos_zero]
  norm_num

lemma ex_vmid : vmid_at exSamples 0 = fin 10 := by
  unfold vmid_at v_at vprev_at
  rw [if_pos rfl]
  have h0 : (exSamples.getD 0 dSample).v_ms = fin 10 := rfl
  rw [h0]
  simp only [F.fmax_fin, F.add_def, F.add_fin, F.mul_def, F.mul_fin, F.fin.injEq]
  norm_num

lemma ex_smooth : smooth_altitude exSamples = some [fin 0, fin 0] := by
  have hnan : ∀ s ∈ exSamples, s.altitude_m.isNan = false := by
    intro s hs
    simp only [exSamples, List.mem_cons, List.not_mem_nil, or_false] at hs
    rcases hs with h0 | h1
    · simp [h0, exS0]
    · simp [h1, exS1]
  rw [smooth_altitude_some hnan]
  have hm : median3 (fin 0) (fin 0) (fin 0) = fin 0 := by
    simp [median3, fmin2, fmax2]
  have e0 : altWin exSamples 0 (-1) = fin 0 := rfl
  have e1 : altWin exSamples 0 0 = fin 0 := rfl
  have e2 : altWin exSamples 0 1 = fin 0 := rfl
  have e3 : altWin exSamples 1 (-1) = fin 0 := rfl
  have e4 : altWin exSamples 1 0 = fin 0 := rfl
  have e5 : altWin exSamples 1 1 = fin 0 := rfl
  have hlen : exSamples.length = 2 := rfl
  rw [hlen, show List.range 2 = [0, 1] from rfl]
  simp only [List.map_cons, List.map_nil, e0, e1, e2, e3, e4, e5, hm]

lemma ex_cda : cda_of exProfile = fin 0.3 := rfl

lemma ex_grav : p_grav_at exSamples [fin 0, fin 0] exProfile 0 = fin 0 := by
  unfold p_grav_at
  rw [ex_vmid]
  have hsl : slope_at exSamples [fin 0, fin 0] 0 = fin 0 := rfl
  rw [hsl]
  have hmass : mass_of exProfile = fin 75 := rfl
  rw [hmass]
  simp only [F.mul_def, F.mul_fin, F.fmax_fin, F.fin.injEq]
  norm_num

lemma ex_acc : p_acc_at exSamples exProfile 0 = fin 0 := by
  unfold p_acc_at a_at v_at vprev_at dt_at
  rw [if_pos rfl, if_pos rfl]
  have h0 : (exSamples.getD 0 dSample).v_ms = fin 10 := rfl
  rw [h0, ex_vmid]
  have hmass : mass_of exProfile = fin 75 := rfl
  rw [hmass]
  simp only [F.fmax_fin, F.sub_def, F.sub_fin, F.div_def]
  rw [F.div_fin _ _ (by norm_num : (1 : ℝ) ≠ 0)]
  simp only [F.mul_def, F.mul_fin, F.fmax_fin, F.fin.injEq]
  norm_num

/-- C2 (counterexample): on the flat 10 m/s ride, raising the along-path
headwind component from 0 to 5 m/s (weather `exWcalm` to `exWhead`)
strictly DECREASES both `v_rel[0]` (from 10 to 5) and the emitted
`power[0]`, where the claim asserts a strict increase. -/
theorem C2_cex_headwind_decreases :
    wind_rel_at exWcalm exSamples 0 = fin 0 ∧
    wind_rel_at exWhead exSamples 0 = fin 5 ∧ (0 : ℝ) < 5 ∧
    ∃ o1 o2 : PowerOutputs,
      compute_power_with_wind exSamples exProfile exWcalm = some o1 ∧
      compute_power_with_wind exSamples exProfile exWhead = some o2 ∧
      o1.v_rel.getD 0 nan = fin 10 ∧ o2.v_rel.getD 0 nan = fin 5 ∧
      F.lt (o2.v_rel.getD 0 nan) (o1.v_rel.getD 0 nan) ∧
      F.lt (o2.power.getD 0 nan) (o1.power.getD 0 nan) := by
  refine ⟨ex_wind_calm, ex_wind_head, by norm_num, ?_⟩
  obtain ⟨o1, o2, h1, h2, hv1, hv2, hvlt, _, hplt⟩ := headwind_decrease_core exSamples
    [fin 0, fin 0] exProfile exWcalm exWhead 0 0 5 10 0.3 0 0 ex_smooth
    (by rw [show exSamples.length = 2 from rfl]; norm_num)
    ex_wind_calm ex_wind_head (by norm_num) (by norm_num) ex_vmid (by norm_num) ex_cda
    (by norm_num) ex_grav ex_acc
  refine ⟨o1, o2, h1, h2, ?_, ?_, hvlt, hplt⟩
  · rw [hv1]; norm_num
  · rw [hv2]; norm_num

/-- C2 (amended): at any sample index with a fixed positive finite
baseline speed, finite gravity/acceleration terms and a positive drag
coefficient, and with all other inputs held fixed, increasing the
along-path headwind component (the code's `wind_rel`, positive =
headwind) strictly DECREASES `v_rel[i]`, the aerodynamic term, and the
total `power[i]`, provided the larger component does not exceed the
midpoint speed. -/
theorem C2_headwind_strictly_decreases_power (samples : List Sample) (alt : List F)
    (profile : Profile) (w1 w2 : Weather) (i : Nat) (hw1 hw2 vm c g ac : ℝ)
    (hsm : smooth_altitude samples = some alt) (hi : i < samples.length)
    (hH1 : wind_rel_at w1 samples i = fin hw1)
    (hH2 : wind_rel_at w2 samples i = fin hw2)
    (hlt : hw1 < hw2) (hclear : hw2 ≤ vm)
    (hvm : vmid_at samples i = fin vm) (hvmpos : 0 < vm)
    (hcda : cda_of profile = fin c) (hcpos : 0 < c)
    (hg : p_grav_at samples alt profile i = fin g)
    (hac : p_acc_at samples profile i = fin ac) :
    ∃ o1 o2 : PowerOutputs,
      compute_power_with_wind samples profile w1 = some o1 ∧
      compute_power_with_wind samples profile w2 = some o2 ∧
      o1.v_rel.getD i nan = fin (vm - hw1) ∧ o2.v_rel.getD i nan = fin (vm - hw2) ∧
      F.lt (o2.v_rel.getD i nan) (o1.v_rel.getD i nan) ∧
      F.lt (p_aero_at w2 samples profile i) (p_aero_at w1 samples profile i) ∧
      F.lt (o2.power.getD i nan) (o1.power.getD i nan) :=
  headwind_decrease_core samples alt profile w1 w2 i hw1 hw2 vm c g ac hsm hi hH1 hH2
    hlt hclear hvm hvmpos hcda hcpos hg hac

/-- C2 (witness): the amended theorem applied to the flat ride with the
headwind raised from 0 to 5 m/s. -/
theorem C2_witness :
    ∃ o1 o2 : PowerOutputs,
      compute_power_with_wind exSamples exProfile exWcalm = some o1 ∧
      compute_power_with_wind exSamples exProfile exWhead = some o2 ∧
      o1.v_rel.getD 0 nan = fin (10 - 0) ∧ o2.v_rel.getD 0 nan = fin (10 - 5) ∧
      F.lt (o2.v_rel.getD 0 nan) (o1.v_rel.getD 0 nan) ∧
      F.lt (p_aero_at exWhead exSamples exProfile 0) (p_aero_at exWcalm exSamples exProfile 0) ∧
      F.lt (o2.power.getD 0 nan) (o1.power.getD 0 nan) :=
  C2_headwind_strictly_decreases_power exSamples [fin 0, fin 0] exProfile exWcalm exWhead
    0 0 5 10 0.3 0 0 ex_smooth (by rw [show exSamples.length = 2 from rfl]; norm_num)
    ex_wind_calm ex_wind_head (by norm_num)
    (by norm_num) ex_vmid (by norm_num) ex_cda (by norm_num) ex_grav ex_acc

/-! ## C9 — Crr estimator range -/

lemma not_nan_lt (y : F) : ¬ F.lt nan y := by cases y <;> simp [F.lt]

/-- IEEE `powf` at a positive finite base and nonzero finite exponent is
the real power. -/
lemma powf_fin_pos (a b : ℝ) (ha : 0 < a) (hb : b ≠ 0) :
    F.powf (fin a) (fin b) = fin (a ^ b) := by
  simp only [F.powf]
  rw [if_neg hb, if_pos ha]

/-- Division of finite values through the `/` notation. -/
lemma hdiv_fin (a b : ℝ) (hb : b ≠ 0) : (fin a / fin b : F) = fin (a / b) := by
  simp [F.div, hb]

/-- The quality multiplier is one of 1.2, 1.0 and 0.85. -/
lemma quality_factor_bounds (q : String) :
    ∃ qf : ℝ, quality_factor_of q = fin qf ∧ 0.85 ≤ qf ∧ qf ≤ 1.2 := by
  unfold quality_factor_of
  split_ifs
  · exact ⟨1.2, rfl, by norm_num, by norm_num⟩
  · exact ⟨1.0, rfl, by norm_num, by norm_num⟩
  · exact ⟨0.85, rfl, by norm_num, by norm_num⟩
  · exact ⟨1.0, rfl, by norm_num, by norm_num⟩

/-- C9 (counterexample): the claim says non-finite widths are replaced
with the reference width before scaling, landing the result in roughly
0.0005-0.02; but `inf < 20.0` is false, so a `+inf` width is kept,
`28 / inf = 0`, `0^0.3 = 0`, and the estimator returns exactly 0 —
below the claimed lower bound. -/
theorem C9_cex_inf_width :
    estimate_crr ("road") pinf ("Vanlig") = fin 0 ∧ (0 : ℝ) < 0.0005 := by
  refine ⟨?_, by norm_num⟩
  unfold estimate_crr
  rw [if_neg (F.not_lt_of_pinf (fin 20))]
  have hdiv : (fin 28 / pinf : F) = fin 0 := rfl
  rw [hdiv]
  have hpow : F.powf (fin 0) (fin 0.3) = fin 0 := by
    simp only [F.powf]
    rw [if_neg (by norm_num : (0.3 : ℝ) ≠ 0), if_neg (by norm_num : ¬ ((0:ℝ) < 0))]
    norm_num
  rw [hpow]
  have hq : quality_factor_of ("Vanlig") = fin 1.0 := rfl
  rw [hq]
  simp only [F.mul_def, F.mul_fin]
  unfold round_to
  rw [if_neg (by norm_num : (5 : Nat) ≠ 0)]
  simp only [F.mul_def, F.mul_fin, F.roundR]
  rw [if_pos (by norm_num : (0:ℝ) ≤ 0.005 * 0 * 1.0 * 10 ^ 5)]
  rw [hdiv_fin _ _ (by norm_num : ((10:ℝ) ^ 5) ≠ 0)]
  norm_num

/-- C9 (amended): for every bike-type label, quality label, and finite
tire width of at most 10 m (widths below 20 mm — including all negative
ones — being replaced by 25 mm), `estimate_crr` returns a finite value
in the plausible band 0.0005-0.02; a NaN width, however, is not
replaced and yields NaN (and `+inf` yields 0, see the counterexample). -/
theorem C9_crr_range (bt q : String) (w : ℝ) (hw : w ≤ 10000) :
    (∃ c : ℝ, estimate_crr bt (fin w) q = fin c ∧ 0.0005 ≤ c ∧ c ≤ 0.02) ∧
    estimate_crr bt nan q = nan := by
  constructor
  · unfold estimate_crr
    obtain ⟨w', hw'eq, hw'lo, hw'hi⟩ : ∃ w' : ℝ,
        (if F.lt (fin w) (fin 20) then fin 25 else (fin w : F)) = fin w' ∧
          20 ≤ w' ∧ w' ≤ 10000 := by
      by_cases h : w < 20
      · exact ⟨25, by rw [if_pos ((F.lt_fin_iff w 20).mpr h)], by norm_num, by norm_num⟩
      · have hnlt : ¬ F.lt (fin w) (fin 20) := by
          rw [F.lt_fin_iff]
          exact h
        exact ⟨w, by rw [if_neg hnlt], by linarith [not_lt.1 h], hw⟩
    rw [hw'eq]
    have hw'pos : (0 : ℝ) < w' := by linarith
    rw [hdiv_fin 28 w' (by linarith)]
    rw [powf_fin_pos (28 / w') 0.3 (by positivity) (by norm_num)]
    obtain ⟨qf, hqf, hqflo, hqfhi⟩ := quality_factor_bounds q
    rw [hqf]
    simp only [F.mul_def, F.mul_fin]
    set t : ℝ := (28 / w') ^ (0.3 : ℝ) with ht
    have htpos : 0 < t := Real.rpow_pos_of_pos (by positivity) _
    have hbase_hi : 28 / w' ≤ 1.4 := by
      rw [div_le_iff₀ hw'pos]
      linarith
    have hbase_lo : (0.0028 : ℝ) ≤ 28 / w' := by
      rw [show (0.0028 : ℝ) = 28 / 10000 from by norm_num, div_le_div_iff₀ (by norm_num) hw'pos]
      nlinarith
    have ht_hi : t ≤ 1.4 := by
      have h1 : t ≤ (1.4 : ℝ) ^ (0.3 : ℝ) :=
        Real.rpow_le_rpow (by positivity) hbase_hi (by norm_num)
      have h2 : (1.4 : ℝ) ^ (0.3 : ℝ) ≤ (1.4 : ℝ) ^ (1 : ℝ) :=
        Real.rpow_le_rpow_of_exponent_le (by norm_num) (by norm_num)
      rw [Real.rpow_one] at h2
      linarith
    have ht_lo : (0.14 : ℝ) ≤ t := by
      have h1 : (0.0028 : ℝ) ^ (0.3 : ℝ) ≤ t :=
        Real.rpow_le_rpow (by norm_num) hbase_lo (by norm_num)
      have h2 : (0.0028 : ℝ) ^ ((1 : ℝ) / 3) ≤ (0.0028 : ℝ) ^ (0.3 : ℝ) :=
        Real.rpow_le_rpow_of_exponent_ge (by norm_num) (by norm_num) (by norm_num)
      have h3 : ((0.14 : ℝ) ^ (3 : ℕ)) ^ ((1 : ℝ) / 3) ≤ (0.0028 : ℝ) ^ ((1 : ℝ) / 3) :=
        Real.rpow_le_rpow (by positivity) (by norm_num) (by norm_num)
      have h4 : ((0.14 : ℝ) ^ (3 : ℕ)) ^ ((1 : ℝ) / 3) = 0.14 := by
        rw [← Real.rpow_natCast (0.14 : ℝ) 3,
          ← Real.rpow_mul (by norm_num : (0 : ℝ) ≤ 0.14)]
        norm_num
      linarith
    have hpre_lo : (0.000595 : ℝ) ≤ 0.005 * t * qf := by nlinarith
    have hpre_hi : 0.005 * t * qf ≤ (0.0084 : ℝ) := by nlinarith
    unfold round_to
    rw [if_neg (by norm_num : (5 : Nat) ≠ 0)]
    simp only [F.mul_def, F.mul_fin, F.roundR]
    rw [if_pos (by nlinarith : (0 : ℝ) ≤ 0.005 * t * qf * 10 ^ 5)]
    rw [hdiv_fin _ _ (by norm_num : ((10 : ℝ) ^ 5) ≠ 0)]
    refine ⟨_, rfl, ?_, ?_⟩
    · have hround := abs_sub_round (0.005 * t * qf * 10 ^ 5)
      rw [abs_le] at hround
      rw [le_div_iff₀ (by norm_num : (0 : ℝ) < 10 ^ 5)]
      obtain ⟨hrl, hrh⟩ := hround
      nlinarith
    · have hround := abs_sub_round (0.005 * t * qf * 10 ^ 5)
      rw [abs_le] at hround
      rw [div_le_iff₀ (by norm_num : (0 : ℝ) < 10 ^ 5)]
      obtain ⟨hrl, hrh⟩ := hround
      nlinarith
  · unfold estimate_crr
    rw [if_neg (not_nan_lt (fin 20))]
    have hdiv : (fin 28 / nan : F) = nan := rfl
    rw [hdiv]
    have hpow : F.powf nan (fin 0.3) = nan := by
      simp only [F.powf]
      rw [if_neg (by norm_num : (0.3 : ℝ) ≠ 0)]
    rw [hpow]
    have hmul1 : (fin (0.005 : ℝ) * nan : F) = nan := rfl
    rw [hmul1]
    have hmul2 : ∀ y : F, (nan * y : F) = nan := by
      intro y
      cases y <;> rfl
    rw [hmul2]
    rfl

/-- C9 (witness): the amended theorem applied at the 28 mm reference
width with the standard quality label. -/
theorem C9_witness :
    (∃ c : ℝ, estimate_crr ("road") (fin 28) ("Vanlig") = fin c ∧
      0.0005 ≤ c ∧ c ≤ 0.02) ∧
    estimate_crr ("road") nan ("Vanlig") = nan :=
  C9_crr_range ("road") ("Vanlig") 28 (by norm_num)

end CycleGraph
